import Mathlib

/-!
Verification development for the `monkey` tree-walking interpreter
(package `monkey`: `internal/token`, `internal/ast`, `internal/parser`,
`internal/object`, `internal/evaluator`).

The Go source is shallowly embedded: Go `int64` values are `Int` together
with an explicit two's-complement wrap (`wrap64`); Go pointer-mutable
`object.Integer` cells live in an explicit integer heap (`EvalState.intHeap`)
and an `Obj.integer` carries the cell's address, so the in-place mutation
performed by `evalMinusPrefixOperatorExpression` and the freshness of every
literal allocation are both observable; the mutable `object.Environment`
chain lives in an explicit frame heap (`EvalState.envHeap`).  The two shared
boolean singletons `TRUE`/`FALSE` (compared by pointer identity in
`isTruthy` and `evalBangOperatorExpression`) are modelled by a `shared` flag
on `Obj.booleanObj`: the singletons are the two objects with
`shared = true`, and any freshly allocated `object.Boolean` (which can never
be pointer-identical to them) has `shared = false`.  Go `nil` results and
Go run-time panics (division by zero, nil dereference) are both modelled as
`none`; recursion uses explicit fuel, and every recursive parser or
evaluator function returns its input state unchanged when the fuel is 0.
-/

namespace Monkey

/-- Token as produced by the external lexer: `token.Token{Type, Literal}`.
`token.TokenType` is a string alias whose constants for operator and
delimiter tokens equal their literal text (`internal/token`). -/
structure Token where
  type : String
  literal : String
deriving DecidableEq, Repr

namespace TokenType

def ILLEGAL : String := "ILLEGAL"
def EOF : String := "EOF"
def IDENT : String := "IDENT"
def INT : String := "INT"
def STRINGT : String := "STRING"
def ASSIGN : String := "="
def PLUS : String := "+"
def MINUS : String := "-"
def BANG : String := "!"
def ASTERISK : String := "*"
def SLASH : String := "/"
def LT : String := "<"
def GT : String := ">"
def EQ : String := "=="
def NOT_EQ : String := "!="
def PERIOD : String := "."
def COMMA : String := ","
def COLON : String := ":"
def SEMICOLON : String := ";"
def LPAREN : String := "("
def RPAREN : String := ")"
def LBRACE : String := "\x7b"
def RBRACE : String := "\x7d"
def LBRACKET : String := "["
def RBRACKET : String := "]"
def FUNCTION : String := "FUNCTION"
def LET : String := "LET"
def TRUE : String := "TRUE"
def FALSE : String := "FALSE"
def IF : String := "IF"
def ELSE : String := "ELSE"
def RETURN : String := "RETURN"

end TokenType

/- AST model (`internal/ast/ast.go`).  One nested inductive family covers
the `Statement` and `Expression` interfaces.  `Expr.nilE` stands for Go's
`nil` `ast.Expression` interface value, which the parser stores into node
fields when a sub-parse fails.  `LetStatement.Name` has interface type
`Expression` in the source, hence `Expr` here; parameters of a function
literal are `*ast.Identifier` values, kept as `(token, value)` pairs.
`IndexExpression` and `HashLiteral` are built by `parser.go`
(`parseIndexExpression`, `parseHashExpression`); their node declarations are
not among the provided source files, so the fields follow the spec's node
catalogue (`IndexExpression{target, index}`, `HashLiteral{pairs}`, with the
hash pairs kept in insertion order). -/

mutual

inductive Expr : Type where
  | identifier (token : Token) (value : String)
  | integerLiteral (token : Token) (value : Int)
  | stringLiteral (token : Token) (value : String)
  | booleanLit (token : Token) (value : Bool)
  | prefixExpr (token : Token) (operator : String) (right : Expr)
  | infixExpr (token : Token) (operator : String) (left : Expr) (right : Expr)
  | ifExpr (token : Token) (condition : Expr)
      (consequence : Token × List Stmt) (alternative : Option (Token × List Stmt))
  | functionLiteral (token : Token) (parameters : List (Token × String))
      (body : Token × List Stmt)
  | callExpr (token : Token) (function : Expr) (arguments : List Expr)
  | arrayLiteral (token : Token) (elements : List Expr)
  | hashLiteral (token : Token) (pairs : List (Expr × Expr))
  | indexExpr (token : Token) (left : Expr) (index : Expr)
  | nilE
/-- Statements (`LetStatement`, `ReturnStatement`, `ExpressionStatement`).
A `BlockStatement` is a `(token, statements)` pair wherever it occurs
(if-consequence, if-alternative, function body, evaluator block node). -/
inductive Stmt : Type where
  | letStmt (token : Token) (name : Expr) (value : Expr)
  | returnStmt (token : Token) (returnValue : Expr)
  | exprStmt (token : Token) (expression : Expr)

end

mutual

/-- Rendering contract `Expression.String()` (`ast.go`).  `Expr.nilE.string`
is `""`: in Go, calling `String()` through a nil interface would panic, and
no rendered tree in this development contains one. -/
def Expr.string : Expr → String
  | .identifier _ v => v
  | .integerLiteral tok _ => tok.literal
  | .stringLiteral tok _ => tok.literal
  | .booleanLit tok _ => tok.literal
  | .prefixExpr _ op r => "(" ++ op ++ r.string ++ ")"
  | .infixExpr _ op l r => "(" ++ l.string ++ " " ++ op ++ " " ++ r.string ++ ")"
  | .ifExpr _ c cons alt =>
      "if" ++ c.string ++ " " ++ Expr.blockString cons.2 ++
        (match alt with
         | some a => "else " ++ Expr.blockString a.2
         | none => "")
  | .functionLiteral tok ps body =>
      tok.literal ++ "(" ++ String.intercalate (", ") (ps.map (·.2)) ++ ")" ++
        Expr.blockString body.2
  | .callExpr _ f args =>
      f.string ++ "(" ++ String.intercalate (", ") (Expr.listString args) ++ ")"
  | .arrayLiteral _ elts => "[" ++ String.join (Expr.listString elts) ++ "]"
  | .hashLiteral _ _ => ""
  | .indexExpr _ _ _ => ""
  | .nilE => ""

/-- Rendering of a statement (`Statement.String()`). -/
def Stmt.string : Stmt → String
  | .letStmt tok name value =>
      tok.literal ++ " " ++ name.string ++ " = " ++
        (match value with | .nilE => "" | v => v.string) ++ ";"
  | .returnStmt tok rv =>
      tok.literal ++ " " ++ (match rv with | .nilE => "" | v => v.string) ++ ";"
  | .exprStmt _ e => match e with | .nilE => "" | e => e.string

/-- Method `BlockStatement.String()`: concatenation of the member statements. -/
def Expr.blockString : List Stmt → String
  | [] => ""
  | s :: rest => s.string ++ Expr.blockString rest

/-- Renders each expression of a list (argument lists, array elements). -/
def Expr.listString : List Expr → List String
  | [] => []
  | e :: rest => e.string :: Expr.listString rest

end

/-- Program root: `ast.Program{Statements}`. -/
structure Program where
  statements : List Stmt

/-- Method `Program.String()`: concatenation of the statements' renderings. -/
def Program.string (p : Program) : String :=
  Expr.blockString p.statements

/- Runtime object model (`internal/object`, `part_006` version: the one with
`ARRAY`/`HASH`).  `Obj.integer` is a pointer to a mutable `int64` cell in
`EvalState.intHeap`; `Obj.booleanObj v shared` models an `*object.Boolean`
whose pointer identity with the evaluator singletons `TRUE`/`FALSE` is
exactly `shared = true`; `Obj.function` stores the captured environment as a
frame address; `Obj.builtin` names one of the fixed builtins (`builtin.go`);
`Obj.hashObj` keys each `HashPair` by its `HashKey` string. -/

mutual

inductive Obj : Type where
  | integer (addr : Nat)
  | stringObj (value : String)
  | booleanObj (value : Bool) (shared : Bool)
  | null
  | returnValue (value : Obj)
  | error (message : String)
  | function (parameters : List (Token × String)) (body : Token × List Stmt) (env : Nat)
  | builtin (name : String)
  | arrayObj (elements : List Obj)
  | hashObj (pairs : List (String × Obj × Obj))

end

/-- Type tags: the `Type()` method of each object variant (`object` package
constants `INTEGER_OBJ` … `HASH_OBJ`). -/
def Obj.typeTag : Obj → String
  | .integer _ => "INTEGER"
  | .stringObj _ => "STRING"
  | .booleanObj _ _ => "BOOLEAN"
  | .null => "NULL"
  | .returnValue _ => "RETURN_VALUE"
  | .error _ => "ERROR"
  | .function _ _ _ => "FUNCTION"
  | .builtin _ => "BUILTIN"
  | .arrayObj _ => "ARRAY"
  | .hashObj _ => "HASH"

/-- Evaluator singletons (`var TRUE/FALSE/NULL` in `part_003`): the two
shared boolean instances and the shared null instance. -/
def TRUE : Obj := .booleanObj true true

/-- The shared `FALSE` singleton. -/
def FALSE : Obj := .booleanObj false true

/-- The shared `NULL` singleton. -/
def NULL : Obj := .null

/-- One mutable environment (`object.Environment{outer, store}`): `outer`
is the parent frame's address, `store` the binding table in insertion
order (later `Set` calls overwrite in place). -/
structure Frame where
  outer : Option Nat
  store : List (String × Obj)

/-- Evaluator state: the heap of mutable `int64` cells backing
`object.Integer` values, and the heap of environment frames. -/
structure EvalState where
  intHeap : List Int
  envHeap : List Frame

/-- Two's-complement wrap of a mathematical integer into `int64`
(Go `int64` arithmetic overflows by wrapping). -/
def wrap64 (n : Int) : Int := (n + 2 ^ 63) % 2 ^ 64 - 2 ^ 63

/-- Reads the `Value` field of the `object.Integer` cell at `addr`
(every address held by a reachable `Obj.integer` is in range; out-of-range
reads default to 0 and never occur). -/
def EvalState.intVal (st : EvalState) (addr : Nat) : Int :=
  (st.intHeap.getD addr 0)

/-- Allocates a fresh `object.Integer` cell (`&object.Integer{Value: v}`). -/
def EvalState.allocInt (st : EvalState) (v : Int) : Obj × EvalState :=
  (.integer st.intHeap.length, { st with intHeap := st.intHeap ++ [v] })

/-- Overwrites the `Value` field of the integer cell at `addr` in place. -/
def EvalState.setInt (st : EvalState) (addr : Nat) (v : Int) : EvalState :=
  { st with intHeap := st.intHeap.set addr v }

/-- Go map assignment on a binding table: overwrite the existing entry for
`name` or append a new one. -/
def storeSet (store : List (String × Obj)) (name : String) (obj : Obj) :
    List (String × Obj) :=
  match store with
  | [] => [(name, obj)]
  | (k, v) :: rest =>
      if k = name then (k, obj) :: rest else (k, v) :: storeSet rest name obj

/-- Constructors `object.NewEnv` and `object.NewEnclosedEnvironment`: pushes a fresh frame
with the given parent and returns its address. -/
def EvalState.newEnv (st : EvalState) (outer : Option Nat) : Nat × EvalState :=
  (st.envHeap.length, { st with envHeap := st.envHeap ++ [⟨outer, []⟩] })

/-- Method `Environment.Get`: look up in this frame's store, then recursively in
the outer frame.  Frames only ever point to earlier frames, so the heap
size bounds the chain length and serves as fuel. -/
def envGetAux (st : EvalState) : Nat → Nat → String → Option Obj
  | 0, _, _ => none
  | fuel + 1, addr, name =>
      match st.envHeap.getD addr ⟨none, []⟩ with
      | frame =>
          match frame.store.lookup name with
          | some obj => some obj
          | none =>
              match frame.outer with
              | some o => envGetAux st fuel o name
              | none => none

/-- Method `Environment.Get` at a frame address. -/
def EvalState.envGet (st : EvalState) (addr : Nat) (name : String) : Option Obj :=
  envGetAux st st.envHeap.length addr name

/-- Method `Environment.Set`: bind `name` in the frame at `addr` (innermost scope
only — never touches outer frames). -/
def EvalState.envSet (st : EvalState) (addr : Nat) (name : String) (obj : Obj) :
    EvalState :=
  { st with
    envHeap :=
      st.envHeap.set addr
        (match st.envHeap.getD addr ⟨none, []⟩ with
         | frame => { frame with store := storeSet frame.store name obj }) }

/-- Helper `newError`: format an `*object.Error` carrying the message. -/
def newError (message : String) : Obj := .error message

/-- Helper `isError` (`part_003`): nil objects are not errors. -/
def isError : Option Obj → Bool
  | some o => o.typeTag = "ERROR"
  | none => false

/-- The fixed builtins table of `builtin.go` (`len`, `printf`, `println`). -/
def builtins (name : String) : Option Obj :=
  if name = "len" || name = "printf" || name = "println" then
    some (.builtin name)
  else none

/-- Helper `nativeBoolToBooleanObject`: returns one of the two shared singletons. -/
def nativeBoolToBooleanObject (b : Bool) : Obj := if b then TRUE else FALSE

/-- Predicate `isTruthy`: a pointer-identity switch against the singletons — any
object that is not the shared `NULL`/`TRUE`/`FALSE` instance (including a
freshly allocated `object.Boolean`) falls to the default and is truthy. -/
def isTruthy : Obj → Bool
  | .null => false
  | .booleanObj true true => true
  | .booleanObj false true => false
  | _ => true

/-- Function `evalBangOperatorExpression`: the same pointer-identity switch. -/
def evalBangOperatorExpression (right : Obj) : Obj :=
  match right with
  | .booleanObj true true => FALSE
  | .booleanObj false true => TRUE
  | .null => TRUE
  | _ => FALSE

/-- Function `evalMinusPrefixOperatorExpression`: non-integers get an
"unknown operator" error; an integer is negated **in place** (the cell's
value is overwritten and the same object is returned). -/
def evalMinusPrefixOperatorExpression (right : Obj) (st : EvalState) :
    Obj × EvalState :=
  match right with
  | .integer addr => (right, st.setInt addr (wrap64 (st.intVal addr * -1)))
  | _ => (newError ("unknown operator: -" ++ right.typeTag), st)

/-- Function `evalPrefixExpression`: dispatch on `!` / `-`. -/
def evalPrefixExpression (operator : String) (right : Obj) (st : EvalState) :
    Obj × EvalState :=
  if operator = "!" then (evalBangOperatorExpression right, st)
  else if operator = "-" then evalMinusPrefixOperatorExpression right st
  else (newError ("Unknown operator: " ++ operator ++ right.typeTag), st)

/-- Function `evalIntegerInfixExpression`: both operands are integer cells;
`+ - * /` allocate a fresh cell holding the wrapped `int64` result,
comparisons return the shared boolean singletons.  `none` models the Go
run-time panic on division by zero (and the impossible type-assertion
failure on non-integer operands). -/
def evalIntegerInfixExpression (operator : String) (left right : Obj)
    (st : EvalState) : Option Obj × EvalState :=
  match left, right with
  | .integer la, .integer ra =>
      let lv := st.intVal la
      let rv := st.intVal ra
      match operator with
      | "+" => (fun p => (some p.1, p.2)) (st.allocInt (wrap64 (lv + rv)))
      | "-" => (fun p => (some p.1, p.2)) (st.allocInt (wrap64 (lv - rv)))
      | "*" => (fun p => (some p.1, p.2)) (st.allocInt (wrap64 (lv * rv)))
      | "/" =>
          if rv = 0 then (none, st)
          else (fun p => (some p.1, p.2)) (st.allocInt (wrap64 (lv.tdiv rv)))
      | "==" => (some (nativeBoolToBooleanObject (lv = rv)), st)
      | "!=" => (some (nativeBoolToBooleanObject (lv ≠ rv)), st)
      | "<" => (some (nativeBoolToBooleanObject (lv < rv)), st)
      | ">" => (some (nativeBoolToBooleanObject (lv > rv)), st)
      | _ =>
          (some (newError ("unknown operator: INTEGER " ++ operator ++ " INTEGER")), st)
  | _, _ => (none, st)

/-- The `strings.Repeat` call in `evalStringInfixExpression`: `none` models
the Go panic on a negative count. -/
def stringRepeat (s : String) (n : Int) : Option String :=
  if n < 0 then none
  else some (String.join (List.replicate n.toNat s))

/-- Function `evalStringInfixExpression`: string`+`string concatenates; string
`==`/`!=` allocate a **fresh** `object.Boolean` (not the shared
singletons); string`*`integer repeats the string; everything else is an
"unknown operation" error. -/
def evalStringInfixExpression (operator : String) (left right : Obj)
    (st : EvalState) : Option Obj :=
  match left, right with
  | .stringObj lv, .stringObj rv =>
      if operator = "+" then some (.stringObj (lv ++ rv))
      else if operator = "==" then some (.booleanObj (lv = rv) false)
      else if operator = "!=" then some (.booleanObj (lv ≠ rv) false)
      else
        some (newError ("unknown operation: STRING " ++ operator ++ " STRING"))
  | .stringObj lv, .integer ra =>
      if operator = "*" then
        match stringRepeat lv (st.intVal ra) with
        | some s => some (.stringObj s)
        | none => none
      else
        some (newError ("unknown operation: STRING " ++ operator ++ " INTEGER"))
  | _, _ =>
      some (newError ("unknown operation: " ++ left.typeTag ++ " " ++ operator ++
        " " ++ right.typeTag))

/-- Function `evalBooleanInfixExpression`: `==`/`!=` compare the `Value` fields,
`<`/`>` order `false` before `true` via a 0/1 encoding; other operators
are "unknown operator" errors.  `none` models the impossible
type-assertion panic on non-boolean operands. -/
def evalBooleanInfixExpression (operator : String) (left right : Obj) :
    Option Obj :=
  match left, right with
  | .booleanObj lv _, .booleanObj rv _ =>
      match operator with
      | "==" => some (nativeBoolToBooleanObject (lv = rv))
      | "!=" => some (nativeBoolToBooleanObject (lv ≠ rv))
      | "<" =>
          some (nativeBoolToBooleanObject
            ((if lv then (1 : Int) else 0) < (if rv then (1 : Int) else 0)))
      | ">" =>
          some (nativeBoolToBooleanObject
            ((if lv then (1 : Int) else 0) > (if rv then (1 : Int) else 0)))
      | _ =>
          some (newError ("unknown operator: BOOLEAN " ++ operator ++ " BOOLEAN"))
  | _, _ => none

/-- Function `evalInfixExpression` (`part_003`): dispatch on the pair of type tags —
integer×integer, boolean×boolean, string×(string or integer) — and
otherwise a "type mismatch" error (even when the two tags are equal, e.g.
`NULL == NULL`; the tag-inequality guard at the top of the function is
commented out in the source). -/
def evalInfixExpression (operator : String) (left right : Obj)
    (st : EvalState) : Option Obj × EvalState :=
  if left.typeTag = "INTEGER" ∧ right.typeTag = "INTEGER" then
    evalIntegerInfixExpression operator left right st
  else if left.typeTag = "BOOLEAN" ∧ right.typeTag = "BOOLEAN" then
    (evalBooleanInfixExpression operator left right, st)
  else if left.typeTag = "STRING" ∧
      (right.typeTag = "INTEGER" ∨ right.typeTag = "STRING") then
    (evalStringInfixExpression operator left right st, st)
  else
    (some (newError ("type mismatch: " ++ left.typeTag ++ " " ++ operator ++
      " " ++ right.typeTag)), st)

/-- Function `evalIdentifier`: environment chain first, then the builtins table,
then an "identifier not found" error. -/
def evalIdentifier (name : String) (env : Nat) (st : EvalState) : Obj :=
  match st.envGet env name with
  | some val => val
  | none =>
      match builtins name with
      | some b => b
      | none => newError ("identifier not found: " ++ name)

/-- Function `extendFunctionEnv`: one fresh frame whose parent is the function's
captured environment (`fn.Env`), holding each parameter bound to the
corresponding argument.  (Go indexes `args[paramIdx]` and panics when a
parameter has no matching argument; the zip stops instead — no claim
evaluates an arity-mismatched call.) -/
def extendFunctionEnv (parameters : List (Token × String)) (fnEnv : Nat)
    (args : List Obj) (st : EvalState) : Nat × EvalState :=
  let (addr, st') := st.newEnv (some fnEnv)
  (addr,
    (parameters.zip args).foldl
      (fun acc pa => acc.envSet addr pa.1.2 pa.2) st')

/-- Function `unwrapReturnValue`: strip one `ReturnValue` wrapper if present. -/
def unwrapReturnValue : Obj → Obj
  | .returnValue v => v
  | o => o

/-- The `ast.Node` sum over which `Eval` switches: a program, a single
statement, an expression, or a block statement. -/
inductive Node : Type where
  | program (statements : List Stmt)
  | stmt (s : Stmt)
  | expr (e : Expr)
  | block (token : Token) (statements : List Stmt)


/- The evaluator proper (`part_003`).  All mutually recursive functions
take an explicit fuel argument and return their input state unchanged with
result `none` when it reaches 0; each call site passes the decremented
fuel.  A `none` result otherwise models Go `nil` (the `Eval` switch has no
case for array/hash/index nodes and falls through to `return nil`) or a Go
run-time panic (nil dereference, division by zero); no claim below
evaluates through such a point, except where a theorem asserts the `none`
itself. -/

mutual

/-- Function `Eval` (`part_003` lines 16–91): the type switch over AST nodes. -/
def Eval (fuel : Nat) (node : Node) (env : Nat) (st : EvalState) :
    Option Obj × EvalState :=
  match fuel with
  | 0 => (none, st)
  | fuel + 1 =>
      match node with
      | .program stmts => evalStatements fuel stmts env st
      | .block _ stmts => evalBlockStatement fuel stmts env st
      | .stmt (.exprStmt _ e) => Eval fuel (.expr e) env st
      | .stmt (.letStmt _ name value) =>
          let (val, st1) := Eval fuel (.expr value) env st
          if isError val then (val, st1)
          else
            match val with
            | none => (none, st1)
            | some v =>
                match name with
                | .identifier _ n => (some v, st1.envSet env n v)
                | _ => (none, st1)
      | .stmt (.returnStmt _ rv) =>
          let (val, st1) := Eval fuel (.expr rv) env st
          if isError val then (val, st1)
          else
            match val with
            | none => (none, st1)
            | some v => (some (.returnValue v), st1)
      | .expr (.integerLiteral _ v) =>
          (fun p => (some p.1, p.2)) (st.allocInt v)
      | .expr (.stringLiteral _ v) => (some (.stringObj v), st)
      | .expr (.booleanLit _ v) => (if v then (some TRUE, st) else (some FALSE, st))
      | .expr (.prefixExpr _ op r) =>
          let (right, st1) := Eval fuel (.expr r) env st
          if isError right then (right, st1)
          else
            match right with
            | none => (none, st1)
            | some ro => (fun p => (some p.1, p.2)) (evalPrefixExpression op ro st1)
      | .expr (.infixExpr _ op l r) =>
          let (left, st1) := Eval fuel (.expr l) env st
          if isError left then (left, st1)
          else
            let (right, st2) := Eval fuel (.expr r) env st1
            if isError right then (right, st2)
            else
              match left, right with
              | some lo, some ro => evalInfixExpression op lo ro st2
              | _, _ => (none, st2)
      | .expr (.callExpr _ f argExprs) =>
          let (fo, st1) := Eval fuel (.expr f) env st
          if isError fo then (fo, st1)
          else
            let (args, st2) := evalExpressions fuel argExprs env st1
            match args with
            | none => (none, st2)
            | some args =>
                if args.length = 1 ∧ isError args.head? then
                  (args.head?, st2)
                else
                  match fo with
                  | none => (none, st2)
                  | some fn => applyFunction fuel fn args st2
      | .expr (.ifExpr _ cond cons alt) =>
          evalIfExpression fuel cond cons alt env st
      | .expr (.identifier _ n) => (some (evalIdentifier n env st), st)
      | .expr (.functionLiteral _ params body) =>
          (some (.function params body env), st)
      | .expr _ => (none, st)
termination_by structural fuel

/-- Function `evalStatements`: evaluate in order, returning early with the unwrapped
value of a `ReturnValue` or with an `Error`, else the last result. -/
def evalStatements (fuel : Nat) (stmts : List Stmt) (env : Nat)
    (st : EvalState) : Option Obj × EvalState :=
  match fuel with
  | 0 => (none, st)
  | fuel + 1 =>
      match stmts with
      | [] => (none, st)
      | s :: rest =>
          let (r, st1) := Eval fuel (.stmt s) env st
          match r with
          | some (.returnValue v) => (some v, st1)
          | some (.error m) => (some (.error m), st1)
          | _ =>
              match rest with
              | [] => (r, st1)
              | _ => evalStatements fuel rest env st1
termination_by structural fuel

/-- Function `evalBlockStatement`: same loop, but a non-nil result whose type tag is
`RETURN_VALUE` or `ERROR` is returned **unchanged**. -/
def evalBlockStatement (fuel : Nat) (stmts : List Stmt) (env : Nat)
    (st : EvalState) : Option Obj × EvalState :=
  match fuel with
  | 0 => (none, st)
  | fuel + 1 =>
      match stmts with
      | [] => (none, st)
      | s :: rest =>
          let (r, st1) := Eval fuel (.stmt s) env st
          match r with
          | some o =>
              if o.typeTag = "RETURN_VALUE" ∨ o.typeTag = "ERROR" then
                (some o, st1)
              else
                match rest with
                | [] => (some o, st1)
                | _ => evalBlockStatement fuel rest env st1
          | none =>
              match rest with
              | [] => (none, st1)
              | _ => evalBlockStatement fuel rest env st1
termination_by structural fuel

/-- Function `evalIfExpression`: short-circuit an error condition; truthy (by
pointer-identity against the singletons) takes the consequence; otherwise
the alternative if present, else the shared `NULL`. -/
def evalIfExpression (fuel : Nat) (cond : Expr) (cons : Token × List Stmt)
    (alt : Option (Token × List Stmt)) (env : Nat) (st : EvalState) :
    Option Obj × EvalState :=
  match fuel with
  | 0 => (none, st)
  | fuel + 1 =>
      let (condition, st1) := Eval fuel (.expr cond) env st
      if isError condition then (condition, st1)
      else
        match condition with
        | none => (none, st1)
        | some c =>
            if isTruthy c then Eval fuel (.block cons.1 cons.2) env st1
            else
              match alt with
              | some a => Eval fuel (.block a.1 a.2) env st1
              | none => (some NULL, st1)
termination_by structural fuel

/-- Function `evalExpressions`: evaluate arguments left to right; on the first
error return the singleton list holding it. -/
def evalExpressions (fuel : Nat) (exps : List Expr) (env : Nat)
    (st : EvalState) : Option (List Obj) × EvalState :=
  match fuel with
  | 0 => (none, st)
  | fuel + 1 =>
      match exps with
      | [] => (some [], st)
      | e :: rest =>
          let (r, st1) := Eval fuel (.expr e) env st
          if isError r then
            (match r with | some o => (some [o], st1) | none => (none, st1))
          else
            match r with
            | none => (none, st1)
            | some o =>
                let (rs, st2) := evalExpressions fuel rest env st1
                match rs with
                | some tail => (some (o :: tail), st2)
                | none => (none, st2)
termination_by structural fuel

/-- Function `applyFunction`: a user function's body runs in one fresh frame
enclosing the function's captured environment, and a `ReturnValue` result
is unwrapped at this boundary; builtins are invoked directly; anything
else is a "not a function" error. -/
def applyFunction (fuel : Nat) (fn : Obj) (args : List Obj)
    (st : EvalState) : Option Obj × EvalState :=
  match fuel with
  | 0 => (none, st)
  | fuel + 1 =>
      match fn with
      | .function params body fnEnv =>
          let (extendEnv, st1) := extendFunctionEnv params fnEnv args st
          let (evaluated, st2) := Eval fuel (.block body.1 body.2) extendEnv st1
          (match evaluated with
           | some o => some (unwrapReturnValue o)
           | none => none, st2)
      | .builtin name => evalBuiltin name args st
      | _ => (some (newError ("not a function: " ++ fn.typeTag)), st)
termination_by structural fuel

/-- The builtin bodies (`builtin.go`): `len` validates arity and type and
allocates its integer result; `printf`/`println` write to standard output
(a side effect outside this model) and return the shared `NULL`. -/
def evalBuiltin (name : String) (args : List Obj) (st : EvalState) :
    Option Obj × EvalState :=
      if name = "len" then
        if args.length ≠ 1 then
          (some (newError ("wrong number of arguments. got=" ++
            toString args.length ++ ", want=1")), st)
        else
          match args.head? with
          | some (.stringObj s) =>
              (fun p => (some p.1, p.2)) (st.allocInt s.utf8ByteSize)
          | some (.arrayObj elts) =>
              (fun p => (some p.1, p.2)) (st.allocInt elts.length)
          | some a =>
              (some (newError ("argument to `len` is not supported. got " ++
                a.typeTag)), st)
          | none => (none, st)
      else if name = "printf" ∨ name = "println" then
        if args.length = 0 then
          (some (newError ("wrong number of arguments. got=" ++
            toString args.length)), st)
        else (some NULL, st)
      else (none, st)


end


/- Parser (`internal/parser/parser.go`).  The parser pulls tokens from the
external lexer; here it consumes a token list, with the lexer's behaviour
of returning EOF tokens forever once exhausted.  `PState` carries the
current/peek tokens, the unread remainder, and the accumulated error
strings.  A returned `Expr.nilE` (or `none` statement) models the Go
functions' `return nil`. -/

structure PState where
  curToken : Token
  peekToken : Token
  rest : List Token
  errors : List String

namespace Parser

/-- Precedence levels (the `iota` block): `LOWEST` … `COLON`. -/
def LOWEST : Nat := 1

/-- Precedence of `==`/`!=`. -/
def EQUALS : Nat := 2

/-- Precedence of `<`/`>`. -/
def LESSGREATER : Nat := 3

/-- Precedence of `+`/binary `-`. -/
def SUM : Nat := 4

/-- Precedence of `*`/`/`. -/
def PRODUCT : Nat := 5

/-- Precedence of unary operators. -/
def PREFIX : Nat := 6

/-- Precedence of a call expression. -/
def CALL : Nat := 7

/-- Precedence of an index expression. -/
def INDEX : Nat := 8

/-- Precedence of property access. -/
def COLON : Nat := 9

/-- Lookup in the `precedences` map.  `peekPrecedence`/`curPrecedence`
index this map by the token's **Literal**, not its Type (a quirk the spec
flags); for every operator token the two coincide. -/
def precedences (literal : String) : Nat :=
  if literal = "==" ∨ literal = "!=" then EQUALS
  else if literal = "<" ∨ literal = ">" then LESSGREATER
  else if literal = "+" ∨ literal = "-" then SUM
  else if literal = "/" ∨ literal = "*" then PRODUCT
  else if literal = "(" then CALL
  else if literal = "[" then INDEX
  else if literal = ":" then COLON
  else LOWEST

/-- Pulls the next token, with the lexer returning `EOF` forever once the
input is exhausted. -/
def takeToken : List Token → Token × List Token
  | [] => (⟨TokenType.EOF, ""⟩, [])
  | t :: ts => (t, ts)

/-- Method `nextToken`: shift peek into cur and read one more token. -/
def nextToken (p : PState) : PState :=
  let (t, ts) := takeToken p.rest
  { p with curToken := p.peekToken, peekToken := t, rest := ts }

/-- Method `curTokenIs`. -/
def curTokenIs (p : PState) (t : String) : Bool := p.curToken.type = t

/-- Method `peekTokenIs`. -/
def peekTokenIs (p : PState) (t : String) : Bool := p.peekToken.type = t

/-- Method `peekError`: appends the structural-mismatch error (guarded by
the same type test, as in the source). -/
def peekError (t : String) (p : PState) : PState :=
  if p.peekToken.type ≠ t then
    { p with errors := p.errors ++
        ["expected next token to be " ++ t ++ ", got " ++ p.peekToken.type ++
          " instead"] }
  else p

/-- Method `expectPeek`: advance on a match, record a `peekError` not. -/
def expectPeek (t : String) (p : PState) : Bool × PState :=
  if peekTokenIs p t then (true, nextToken p)
  else (false, peekError t p)

/-- Method `noPrefixParseFnError` — note the message says "parser", not
"parse": `fmt.Sprintf("no prefix parser function for %s found", t)`. -/
def noPrefixParseFnError (t : String) (p : PState) : PState :=
  { p with errors := p.errors ++ ["no prefix parser function for " ++ t ++ " found"] }

/-- Method `peekPrecedence` (indexing `precedences` by literal). -/
def peekPrecedence (p : PState) : Nat := precedences p.peekToken.literal

/-- Method `curPrecedence` (indexing `precedences` by literal). -/
def curPrecedence (p : PState) : Nat := precedences p.curToken.literal

/-- Decimal value of a non-empty digit run, `none` on a non-digit. -/
def decDigits : List Char → Option Nat
  | [] => none
  | ds =>
      let rec go : List Char → Nat → Option Nat
        | [], acc => some acc
        | c :: cs, acc =>
            if c.isDigit then go cs (acc * 10 + (c.toNat - 48))
            else none
      go ds 0

/-- Model of `strconv.ParseInt(s, 10, 64)`: optional sign, non-empty
decimal digits, result within the `int64` range. -/
def parseInt64 (s : String) : Option Int :=
  match s.data with
  | [] => none
  | '+' :: ds =>
      match decDigits ds with
      | some n => if (n : Int) ≤ 2 ^ 63 - 1 then some (n : Int) else none
      | none => none
  | '-' :: ds =>
      match decDigits ds with
      | some n => if (n : Int) ≤ 2 ^ 63 then some (-(n : Int)) else none
      | none => none
  | ds =>
      match decDigits ds with
      | some n => if (n : Int) ≤ 2 ^ 63 - 1 then some (n : Int) else none
      | none => none

/-- Model of the `%q` verb used by `parseIntegerLiteral`: Go-quote the
literal (escaping of characters beyond backslash and double quote is not
needed for the literals the lexer produces). -/
def goQuote (s : String) : String :=
  "\"" ++ String.join (s.data.map (fun c =>
    if c = '\"' then "\\\"" else if c = '\\' then "\\\\" else String.singleton c)) ++ "\""

/-- Rule `parseIdentifier`. -/
def parseIdentifier (p : PState) : Expr :=
  .identifier p.curToken p.curToken.literal

/-- Rule `parseIntegerLiteral`: on a `strconv.ParseInt` failure, append
the "could not parse %q as integer" error and return nil. -/
def parseIntegerLiteral (p : PState) : Expr × PState :=
  match parseInt64 p.curToken.literal with
  | some v => (.integerLiteral p.curToken v, p)
  | none =>
      (.nilE,
        { p with errors := p.errors ++
            ["could not parse " ++ goQuote p.curToken.literal ++ " as integer"] })

/-- Rule `parseStringLiteral`. -/
def parseStringLiteral (p : PState) : Expr :=
  .stringLiteral p.curToken p.curToken.literal

/-- Rule `parseBoolean`. -/
def parseBoolean (p : PState) : Expr :=
  .booleanLit p.curToken (curTokenIs p TokenType.TRUE)



/- The mutually recursive parse rules, driven by explicit fuel.  The two
dispatch tables populated in `parser.New` are realized as the dispatch
matches in `runPrefixRule` (prefix table; `none` means "no prefix parse
function registered") and `parseExpressionLoop` (infix table; an
unregistered peek token ends the loop, as `infix == nil` does in the
source). -/

mutual

/-- Function `parseExpression`: invoke the prefix rule for the current
token (appending the no-prefix-rule error and returning nil if none is
registered), then fold infix rules while the peek token binds tighter. -/
def parseExpression (fuel : Nat) (precedence : Nat) (p : PState) :
    Expr × PState :=
  match fuel with
  | 0 => (.nilE, p)
  | fuel + 1 =>
      match runPrefixRule fuel p with
      | none => (.nilE, noPrefixParseFnError p.curToken.type p)
      | some (leftExp, p1) => parseExpressionLoop fuel precedence leftExp p1

/-- Dispatch through the `prefixParseFns` table registered in `New`. -/
def runPrefixRule (fuel : Nat) (p : PState) : Option (Expr × PState) :=
  match fuel with
  | 0 => none
  | fuel + 1 =>
      if p.curToken.type = TokenType.IDENT then some (parseIdentifier p, p)
      else if p.curToken.type = TokenType.INT then some (parseIntegerLiteral p)
      else if p.curToken.type = TokenType.BANG ∨ p.curToken.type = TokenType.MINUS then
        some (parsePrefixOperatorExpression fuel p)
      else if p.curToken.type = TokenType.TRUE ∨ p.curToken.type = TokenType.FALSE then
        some (parseBoolean p, p)
      else if p.curToken.type = TokenType.LPAREN then some (parseGroupedExpression fuel p)
      else if p.curToken.type = TokenType.IF then some (parseIfExpression fuel p)
      else if p.curToken.type = TokenType.FUNCTION then some (parseFunctionLiteral fuel p)
      else if p.curToken.type = TokenType.STRINGT then some (parseStringLiteral p, p)
      else if p.curToken.type = TokenType.LBRACKET then some (parseArrayLiteral fuel p)
      else if p.curToken.type = TokenType.LBRACE then some (parseHashExpression fuel p)
      else none

/-- Main loop of `parseExpression`: while the peek token is not a
semicolon and binds tighter than `precedence`, advance and apply its
infix rule (from the `infixParseFns` table) to the expression so far. -/
def parseExpressionLoop (fuel : Nat) (precedence : Nat) (leftExp : Expr)
    (p : PState) : Expr × PState :=
  match fuel with
  | 0 => (leftExp, p)
  | fuel + 1 =>
      if ¬ peekTokenIs p TokenType.SEMICOLON ∧ precedence < peekPrecedence p then
        if p.peekToken.type = TokenType.PLUS ∨ p.peekToken.type = TokenType.MINUS ∨
            p.peekToken.type = TokenType.SLASH ∨ p.peekToken.type = TokenType.ASTERISK ∨
            p.peekToken.type = TokenType.EQ ∨ p.peekToken.type = TokenType.NOT_EQ ∨
            p.peekToken.type = TokenType.LT ∨ p.peekToken.type = TokenType.GT then
          let p1 := nextToken p
          let (e, p2) := parseInfixOperatorExpression fuel leftExp p1
          parseExpressionLoop fuel precedence e p2
        else if p.peekToken.type = TokenType.LPAREN then
          let p1 := nextToken p
          let (e, p2) := parseCallExpression fuel leftExp p1
          parseExpressionLoop fuel precedence e p2
        else if p.peekToken.type = TokenType.LBRACKET ∨
            p.peekToken.type = TokenType.PERIOD then
          let p1 := nextToken p
          let (e, p2) := parseIndexExpression fuel leftExp p1
          parseExpressionLoop fuel precedence e p2
        else (leftExp, p)
      else (leftExp, p)

/-- Rule `parseInfixExpression` (the source's name; suffixed here to keep
it apart from the evaluator's `evalInfixExpression`): record the operator,
then parse the right operand at the operator's own precedence. -/
def parseInfixOperatorExpression (fuel : Nat) (left : Expr) (p : PState) :
    Expr × PState :=
  match fuel with
  | 0 => (.nilE, p)
  | fuel + 1 =>
      let tok := p.curToken
      let op := p.curToken.literal
      let precedence := curPrecedence p
      let p1 := nextToken p
      let (right, p2) := parseExpression fuel precedence p1
      (.infixExpr tok op left right, p2)

/-- Rule `parsePrefixExpression`: parse the operand at `PREFIX`
precedence. -/
def parsePrefixOperatorExpression (fuel : Nat) (p : PState) : Expr × PState :=
  match fuel with
  | 0 => (.nilE, p)
  | fuel + 1 =>
      let tok := p.curToken
      let op := p.curToken.literal
      let p1 := nextToken p
      let (right, p2) := parseExpression fuel PREFIX p1
      (.prefixExpr tok op right, p2)

/-- Rule `parseGroupedExpression`: parse after `(`, then require `)`. -/
def parseGroupedExpression (fuel : Nat) (p : PState) : Expr × PState :=
  match fuel with
  | 0 => (.nilE, p)
  | fuel + 1 =>
      let p1 := nextToken p
      let (exp, p2) := parseExpression fuel LOWEST p1
      let (ok, p3) := expectPeek TokenType.RPAREN p2
      if ok then (exp, p3) else (.nilE, p3)

/-- Rule `parseIfExpression`. -/
def parseIfExpression (fuel : Nat) (p : PState) : Expr × PState :=
  match fuel with
  | 0 => (.nilE, p)
  | fuel + 1 =>
      let tok := p.curToken
      let (ok, p1) := expectPeek TokenType.LPAREN p
      if ¬ ok then (.nilE, p1)
      else
        let p2 := nextToken p1
        let (cond, p3) := parseExpression fuel LOWEST p2
        let (ok2, p4) := expectPeek TokenType.RPAREN p3
        if ¬ ok2 then (.nilE, p4)
        else
          let (ok3, p5) := expectPeek TokenType.LBRACE p4
          if ¬ ok3 then (.nilE, p5)
          else
            let (cons, p6) := parseBlockStatement fuel p5
            if peekTokenIs p6 TokenType.ELSE then
              let p7 := nextToken p6
              let (ok4, p8) := expectPeek TokenType.LBRACE p7
              if ¬ ok4 then (.nilE, p8)
              else
                let (alt, p9) := parseBlockStatement fuel p8
                (.ifExpr tok cond cons (some alt), p9)
            else (.ifExpr tok cond cons none, p6)

/-- Rule `parseBlockStatement`: collect statements until `\x7d` or EOF. -/
def parseBlockStatement (fuel : Nat) (p : PState) :
    (Token × List Stmt) × PState :=
  match fuel with
  | 0 => ((⟨TokenType.EOF, ""⟩, []), p)
  | fuel + 1 =>
      let tok := p.curToken
      let p1 := nextToken p
      let (stmts, p2) := parseBlockLoop fuel p1
      ((tok, stmts), p2)

/-- Loop body of `parseBlockStatement`. -/
def parseBlockLoop (fuel : Nat) (p : PState) : List Stmt × PState :=
  match fuel with
  | 0 => ([], p)
  | fuel + 1 =>
      if ¬ curTokenIs p TokenType.RBRACE ∧ ¬ curTokenIs p TokenType.EOF then
        let (stmtOpt, p1) := parseStatement fuel p
        let p2 := nextToken p1
        let (rest, p3) := parseBlockLoop fuel p2
        (match stmtOpt with
         | some s => s :: rest
         | none => rest, p3)
      else ([], p)

/-- Rule `parseFunctionParameters`: an empty list on immediate `)`,
otherwise comma-separated identifiers and a required `)` (the Go function
returns a nil slice after recording the `peekError`; iteration over nil
and over the empty list agree, so both are `[]` here). -/
def parseFunctionParameters (fuel : Nat) (p : PState) :
    List (Token × String) × PState :=
  match fuel with
  | 0 => ([], p)
  | fuel + 1 =>
      if peekTokenIs p TokenType.RPAREN then ([], nextToken p)
      else
        let p1 := nextToken p
        let first := (p1.curToken, p1.curToken.literal)
        let (rest, p2) := parseFunctionParametersLoop fuel p1
        let (ok, p3) := expectPeek TokenType.RPAREN p2
        if ok then (first :: rest, p3) else ([], p3)

/-- Comma loop of `parseFunctionParameters`. -/
def parseFunctionParametersLoop (fuel : Nat) (p : PState) :
    List (Token × String) × PState :=
  match fuel with
  | 0 => ([], p)
  | fuel + 1 =>
      if peekTokenIs p TokenType.COMMA then
        let p1 := nextToken (nextToken p)
        let ident := (p1.curToken, p1.curToken.literal)
        let (rest, p2) := parseFunctionParametersLoop fuel p1
        (ident :: rest, p2)
      else ([], p)

/-- Rule `parseFunctionLiteral`: `fn` `(` params `)` `\x7b` body. -/
def parseFunctionLiteral (fuel : Nat) (p : PState) : Expr × PState :=
  match fuel with
  | 0 => (.nilE, p)
  | fuel + 1 =>
      let tok := p.curToken
      let (ok, p1) := expectPeek TokenType.LPAREN p
      if ¬ ok then (.nilE, p1)
      else
        let (params, p2) := parseFunctionParameters fuel p1
        let (ok2, p3) := expectPeek TokenType.LBRACE p2
        if ¬ ok2 then (.nilE, p3)
        else
          let (body, p4) := parseBlockStatement fuel p3
          (.functionLiteral tok params body, p4)

/-- Rule `parseCallExpression` (infix on `(`). -/
def parseCallExpression (fuel : Nat) (left : Expr) (p : PState) :
    Expr × PState :=
  match fuel with
  | 0 => (.nilE, p)
  | fuel + 1 =>
      let tok := p.curToken
      let (args, p1) := parseExpressionList fuel TokenType.RPAREN p
      (.callExpr tok left args, p1)

/-- Rule `parseArrayLiteral` (prefix on `[`). -/
def parseArrayLiteral (fuel : Nat) (p : PState) : Expr × PState :=
  match fuel with
  | 0 => (.nilE, p)
  | fuel + 1 =>
      let tok := p.curToken
      let (elts, p1) := parseExpressionList fuel TokenType.RBRACKET p
      (.arrayLiteral tok elts, p1)

/-- Rule `parseExpressionList`: the shared comma-separated-list routine
(call arguments, array elements); returns `[]` where Go returns a nil
slice after a failed `expectPeek`. -/
def parseExpressionList (fuel : Nat) (endTok : String) (p : PState) :
    List Expr × PState :=
  match fuel with
  | 0 => ([], p)
  | fuel + 1 =>
      if peekTokenIs p endTok then ([], nextToken p)
      else
        let p1 := nextToken p
        let (first, p2) := parseExpression fuel LOWEST p1
        let (rest, p3) := parseExpressionListLoop fuel p2
        let (ok, p4) := expectPeek endTok p3
        if ok then (first :: rest, p4) else ([], p4)

/-- Comma loop of `parseExpressionList`. -/
def parseExpressionListLoop (fuel : Nat) (p : PState) :
    List Expr × PState :=
  match fuel with
  | 0 => ([], p)
  | fuel + 1 =>
      if peekTokenIs p TokenType.COMMA then
        let p1 := nextToken (nextToken p)
        let (e, p2) := parseExpression fuel LOWEST p1
        let (rest, p3) := parseExpressionListLoop fuel p2
        (e :: rest, p3)
      else ([], p)

/-- Rule `parseIndexExpression` (infix on `[` or `.`): property access
via `.identifier`, or a bracketed index requiring `]`. -/
def parseIndexExpression (fuel : Nat) (left : Expr) (p : PState) :
    Expr × PState :=
  match fuel with
  | 0 => (.nilE, p)
  | fuel + 1 =>
      let tok := p.curToken
      if curTokenIs p TokenType.PERIOD then
        if ¬ peekTokenIs p TokenType.IDENT then (.nilE, p)
        else
          let p1 := nextToken p
          (.indexExpr tok left (parseIdentifier p1), p1)
      else
        let p1 := nextToken p
        let (idx, p2) := parseExpression fuel LOWEST p1
        let (ok, p3) := expectPeek TokenType.RBRACKET p2
        if ok then (.indexExpr tok left idx, p3) else (.nilE, p3)

/-- Rule `parseHashExpression` (prefix on `\x7b`): `key : value` pairs
separated by commas until the closing brace. -/
def parseHashExpression (fuel : Nat) (p : PState) : Expr × PState :=
  match fuel with
  | 0 => (.nilE, p)
  | fuel + 1 =>
      let tok := p.curToken
      let (pairsOpt, p1) := parseHashLoop fuel p
      match pairsOpt with
      | none => (.nilE, p1)
      | some pairs =>
          let (ok, p2) := expectPeek TokenType.RBRACE p1
          if ok then (.hashLiteral tok pairs, p2) else (.nilE, p2)

/-- Pair loop of `parseHashExpression`; `none` models the early
`return nil` on a missing colon or separator. -/
def parseHashLoop (fuel : Nat) (p : PState) :
    Option (List (Expr × Expr)) × PState :=
  match fuel with
  | 0 => (some [], p)
  | fuel + 1 =>
      if ¬ peekTokenIs p TokenType.RBRACE then
        let p1 := nextToken p
        let (key, p2) := parseExpression fuel LOWEST p1
        let (ok, p3) := expectPeek TokenType.COLON p2
        if ¬ ok then (none, p3)
        else
          let p4 := nextToken p3
          let (value, p5) := parseExpression fuel LOWEST p4
          if ¬ peekTokenIs p5 TokenType.RBRACE then
            let (ok2, p6) := expectPeek TokenType.COMMA p5
            if ¬ ok2 then (none, p6)
            else
              let (restOpt, p7) := parseHashLoop fuel p6
              (restOpt.map (fun rest => (key, value) :: rest), p7)
          else
            let (restOpt, p6) := parseHashLoop fuel p5
            (restOpt.map (fun rest => (key, value) :: rest), p6)
      else (some [], p)

/-- Loop `for p.peekTokenIs(token.SEMICOLON)` shared by the let and
return statement rules: consume consecutive semicolons. -/
def skipSemicolons (fuel : Nat) (p : PState) : PState :=
  match fuel with
  | 0 => p
  | fuel + 1 =>
      if peekTokenIs p TokenType.SEMICOLON then skipSemicolons fuel (nextToken p)
      else p

/-- Rule `parseLetStatement`: `let` ident `=` expression `;`*. -/
def parseLetStatement (fuel : Nat) (p : PState) : Option Stmt × PState :=
  match fuel with
  | 0 => (none, p)
  | fuel + 1 =>
      let tok := p.curToken
      let (ok, p1) := expectPeek TokenType.IDENT p
      if ¬ ok then (none, p1)
      else
        let name := parseIdentifier p1
        let (ok2, p2) := expectPeek TokenType.ASSIGN p1
        if ¬ ok2 then (none, p2)
        else
          let p3 := nextToken p2
          let (value, p4) := parseExpression fuel LOWEST p3
          (some (.letStmt tok name value), skipSemicolons fuel p4)

/-- Rule `parseReturnStatement`: `return` expression `;`*. -/
def parseReturnStatement (fuel : Nat) (p : PState) : Option Stmt × PState :=
  match fuel with
  | 0 => (none, p)
  | fuel + 1 =>
      let tok := p.curToken
      let p1 := nextToken p
      let (value, p2) := parseExpression fuel LOWEST p1
      (some (.returnStmt tok value), skipSemicolons fuel p2)

/-- Rule `parseExpressionStatements`: a bare expression, with one optional
trailing semicolon consumed. -/
def parseExpressionStatements (fuel : Nat) (p : PState) :
    Option Stmt × PState :=
  match fuel with
  | 0 => (none, p)
  | fuel + 1 =>
      let tok := p.curToken
      let (e, p1) := parseExpression fuel LOWEST p
      let p2 := if peekTokenIs p1 TokenType.SEMICOLON then nextToken p1 else p1
      (some (.exprStmt tok e), p2)

/-- Rule `parseStatement`: dispatch on the leading keyword. -/
def parseStatement (fuel : Nat) (p : PState) : Option Stmt × PState :=
  match fuel with
  | 0 => (none, p)
  | fuel + 1 =>
      if curTokenIs p TokenType.LET then parseLetStatement fuel p
      else if curTokenIs p TokenType.RETURN then parseReturnStatement fuel p
      else parseExpressionStatements fuel p

/-- Method `ParseProgram`: parse statements (skipping nil ones) until
EOF. -/
def parseProgramLoop (fuel : Nat) (p : PState) : List Stmt × PState :=
  match fuel with
  | 0 => ([], p)
  | fuel + 1 =>
      if ¬ curTokenIs p TokenType.EOF then
        let (stmtOpt, p1) := parseStatement fuel p
        let p2 := nextToken p1
        let (rest, p3) := parseProgramLoop fuel p2
        (match stmtOpt with
         | some s => s :: rest
         | none => rest, p3)
      else ([], p)

end

/-- Constructor `New`: prime `curToken`/`peekToken` with two `nextToken`
calls over the token stream. -/
def pNew (tokens : List Token) : PState :=
  let (t1, r1) := takeToken tokens
  let (t2, r2) := takeToken r1
  { curToken := t1, peekToken := t2, rest := r2, errors := [] }

/-- Whole-program entry: `parser.New` followed by `ParseProgram`. -/
def parseProgram (fuel : Nat) (tokens : List Token) : Program × PState :=
  let (stmts, p1) := parseProgramLoop fuel (pNew tokens)
  (⟨stmts⟩, p1)

end Parser


/-- Method `HashKey()` (`part_006`): defined for `Integer`
(`"INTEGER_%d"` on the cell's value) and `String` (`"STRING_%s"`); no
other object satisfies the `Hashable` interface. -/
def hashKey (o : Obj) (st : EvalState) : Option String :=
  match o with
  | .integer addr => some ("INTEGER_" ++ toString (st.intVal addr))
  | .stringObj s => some ("STRING_" ++ s)
  | _ => none

/-- Modelled from the spec: the evaluator's array-index case.  The current
evaluator source under `src/` (`part_003`) has no `IndexExpression` case —
only the repository's tests exercise indexing — so this follows spec §4.4:
"`array[i]` requires `i` to be an in-range integer index (an out-of-range
index yields `Null`, not an error)". -/
def evalArrayIndexExpression (elements : List Obj) (idx : Int) : Obj :=
  if idx < 0 ∨ idx > (elements.length : Int) - 1 then NULL
  else elements.getD idx.toNat NULL

/-- Modelled from the spec: the evaluator's hash-index case, following
spec §4.4: "`hash[k]` requires `k` to be hashable and performs key lookup,
yielding `Null` on miss"; an unhashable key is rejected with an error
naming the offending type. -/
def evalHashIndexExpression (pairs : List (String × Obj × Obj)) (key : Obj)
    (st : EvalState) : Obj :=
  match hashKey key st with
  | none => newError ("unusable as hash key: " ++ key.typeTag)
  | some hk =>
      match pairs.lookup hk with
      | some kv => kv.2
      | none => NULL

/-- Modelled from the spec: the evaluator's index-expression dispatch,
following spec §4.4: array indexing for `ARRAY` with an `INTEGER` index,
hash lookup for `HASH`, and for anything else "a type error naming the
indexed object's type tag". -/
def evalIndexExpression (left index : Obj) (st : EvalState) : Obj :=
  match left, index with
  | .arrayObj elements, .integer ia =>
      evalArrayIndexExpression elements (st.intVal ia)
  | .hashObj pairs, _ => evalHashIndexExpression pairs index st
  | _, _ => newError ("index operator not supported: " ++ left.typeTag)

/-- Entry point of `cmd/interpreter` (and of each REPL line): one fresh
global environment (`object.NewEnv`), then `Eval(program, env)`. -/
def runProgram (stmts : List Stmt) (fuel : Nat) : Option Obj × EvalState :=
  let (g, st1) := EvalState.newEnv ⟨[], []⟩ none
  Eval fuel (.program stmts) g st1

/-- Projects an integer-object result onto the value of its heap cell. -/
def finalInt (r : Option Obj × EvalState) : Option Int :=
  match r.1 with
  | some (.integer addr) => some (r.2.intVal addr)
  | _ => none

/- Concrete fixtures used by the claim theorems: tokens exactly as the
external lexer produces them for the quoted source programs, and AST
values exactly as the parser produces them (identifier/let/operator tokens
carry their literal text). -/

/-- Shorthand for an identifier expression node. -/
def mkIdent (s : String) : Expr := .identifier ⟨TokenType.IDENT, s⟩ s

/-- Shorthand for an integer literal node as parsed from decimal text. -/
def mkInt (n : Int) : Expr := .integerLiteral ⟨TokenType.INT, toString n⟩ n

/-- Token list for `1 + 2 * 3`. -/
def toksPrecedence : List Token :=
  [⟨TokenType.INT, "1"⟩, ⟨TokenType.PLUS, "+"⟩, ⟨TokenType.INT, "2"⟩,
   ⟨TokenType.ASTERISK, "*"⟩, ⟨TokenType.INT, "3"⟩, ⟨TokenType.EOF, ""⟩]

/-- Token list for `-(5 + 5)`. -/
def toksGroupedMinus : List Token :=
  [⟨TokenType.MINUS, "-"⟩, ⟨TokenType.LPAREN, "("⟩, ⟨TokenType.INT, "5"⟩,
   ⟨TokenType.PLUS, "+"⟩, ⟨TokenType.INT, "5"⟩, ⟨TokenType.RPAREN, ")"⟩,
   ⟨TokenType.EOF, ""⟩]

/-- Token list for `5 * 1 + 1 * 4` (left-associativity of `+` over two
products). -/
def toksLeftAssoc : List Token :=
  [⟨TokenType.INT, "5"⟩, ⟨TokenType.ASTERISK, "*"⟩, ⟨TokenType.INT, "1"⟩,
   ⟨TokenType.PLUS, "+"⟩, ⟨TokenType.INT, "1"⟩, ⟨TokenType.ASTERISK, "*"⟩,
   ⟨TokenType.INT, "4"⟩, ⟨TokenType.EOF, ""⟩]

/-- Token list for `) 7`: the `)` cannot begin an expression, and `7` is a
following top-level statement. -/
def toksNoPrefixRule : List Token :=
  [⟨TokenType.RPAREN, ")"⟩, ⟨TokenType.INT, "7"⟩, ⟨TokenType.EOF, ""⟩]

/-- Statement `return 10;`. -/
def stmtReturn10 : Stmt :=
  .returnStmt ⟨TokenType.RETURN, "return"⟩ (mkInt 10)

/-- Statement `9;`. -/
def stmtNine : Stmt := .exprStmt ⟨TokenType.INT, "9"⟩ (mkInt 9)

/-- The block token `\x7b` shared by the fixture function bodies. -/
def lbraceTok : Token := ⟨TokenType.LBRACE, TokenType.LBRACE⟩

/-- Program `let newAdder = fn(x) \x7b fn(y) \x7b x + y \x7d \x7d;
let addTwo = newAdder(2); addTwo(3);` — the spec's closure fixture. -/
def progClosure : List Stmt :=
  [ .letStmt ⟨TokenType.LET, "let"⟩ (mkIdent ("newAdder"))
      (.functionLiteral ⟨TokenType.FUNCTION, "fn"⟩ [(⟨TokenType.IDENT, "x"⟩, "x")]
        (lbraceTok,
          [ .exprStmt ⟨TokenType.FUNCTION, "fn"⟩
              (.functionLiteral ⟨TokenType.FUNCTION, "fn"⟩ [(⟨TokenType.IDENT, "y"⟩, "y")]
                (lbraceTok,
                  [ .exprStmt ⟨TokenType.IDENT, "x"⟩
                      (.infixExpr ⟨TokenType.PLUS, "+"⟩ ("+") (mkIdent ("x"))
                        (mkIdent ("y"))) ])) ])),
    .letStmt ⟨TokenType.LET, "let"⟩ (mkIdent ("addTwo"))
      (.callExpr ⟨TokenType.LPAREN, "("⟩ (mkIdent ("newAdder")) [mkInt 2]),
    .exprStmt ⟨TokenType.IDENT, "addTwo"⟩
      (.callExpr ⟨TokenType.LPAREN, "("⟩ (mkIdent ("addTwo")) [mkInt 3]) ]

/-- Program `if ("a" == "b") \x7b 1 \x7d else \x7b 2 \x7d`. -/
def progStringIf : List Stmt :=
  [ .exprStmt ⟨TokenType.IF, "if"⟩
      (.ifExpr ⟨TokenType.IF, "if"⟩
        (.infixExpr ⟨TokenType.EQ, "=="⟩ ("==")
          (.stringLiteral ⟨TokenType.STRINGT, "a"⟩ ("a"))
          (.stringLiteral ⟨TokenType.STRINGT, "b"⟩ ("b")))
        (lbraceTok, [.exprStmt ⟨TokenType.INT, "1"⟩ (mkInt 1)])
        (some (lbraceTok, [.exprStmt ⟨TokenType.INT, "2"⟩ (mkInt 2)]))) ]

/-- Program `let a = 5; -a; a`. -/
def progNegIdent : List Stmt :=
  [ .letStmt ⟨TokenType.LET, "let"⟩ (mkIdent ("a")) (mkInt 5),
    .exprStmt ⟨TokenType.MINUS, "-"⟩
      (.prefixExpr ⟨TokenType.MINUS, "-"⟩ ("-") (mkIdent ("a"))),
    .exprStmt ⟨TokenType.IDENT, "a"⟩ (mkIdent ("a")) ]

/-- Program `let a = 5;`. -/
def progLetOnly : List Stmt :=
  [ .letStmt ⟨TokenType.LET, "let"⟩ (mkIdent ("a")) (mkInt 5) ]

/-- Program `let f = fn() \x7b if (true) \x7b if (true) \x7b return 10;
\x7d return 0; \x7d return 1; \x7d; f();` — a `return` nested two blocks
deep inside a function body, with statements after it at every level. -/
def progNestedReturn : List Stmt :=
  [ .letStmt ⟨TokenType.LET, "let"⟩ (mkIdent ("f"))
      (.functionLiteral ⟨TokenType.FUNCTION, "fn"⟩ []
        (lbraceTok,
          [ .exprStmt ⟨TokenType.IF, "if"⟩
              (.ifExpr ⟨TokenType.IF, "if"⟩ (.booleanLit ⟨TokenType.TRUE, "true"⟩ true)
                (lbraceTok,
                  [ .exprStmt ⟨TokenType.IF, "if"⟩
                      (.ifExpr ⟨TokenType.IF, "if"⟩
                        (.booleanLit ⟨TokenType.TRUE, "true"⟩ true)
                        (lbraceTok, [.returnStmt ⟨TokenType.RETURN, "return"⟩ (mkInt 10)])
                        none),
                    .returnStmt ⟨TokenType.RETURN, "return"⟩ (mkInt 0) ])
                none),
            .returnStmt ⟨TokenType.RETURN, "return"⟩ (mkInt 1) ])),
    .exprStmt ⟨TokenType.IDENT, "f"⟩
      (.callExpr ⟨TokenType.LPAREN, "("⟩ (mkIdent ("f")) []) ]

/-- The three message forms asserted by the specification's parser error
taxonomy, verbatim ("no prefix **parse** function"). -/
def ClaimedErrForm (s : String) : Prop :=
  (∃ x y, s = "expected next token to be " ++ x ++ ", got " ++ y ++ " instead") ∨
  (∃ x, s = "no prefix parse function for " ++ x ++ " found") ∨
  (∃ l, s = "could not parse " ++ l ++ " as integer")

/-- The three message forms the parser actually produces ("no prefix
**parser** function", and the integer literal rendered through `%q`). -/
def ActualErrForm (s : String) : Prop :=
  (∃ x y, s = "expected next token to be " ++ x ++ ", got " ++ y ++ " instead") ∨
  (∃ x, s = "no prefix parser function for " ++ x ++ " found") ∨
  (∃ l, s = "could not parse " ++ Parser.goQuote l ++ " as integer")

/-- Invariant carried through the error-taxonomy induction: every
accumulated parser error message has one of the three actual forms. -/
def ErrsOK (p : PState) : Prop := ∀ e ∈ p.errors, ActualErrForm e


/- Helper lemmas shared by the claim theorems. -/

/-- Reading a freshly appended element at the old length. -/
theorem getElem?_append_self {α : Type} (xs : List α) (v : α) :
    (xs ++ [v])[xs.length]? = some v := by
  rw [List.getElem?_append_right (Nat.le_refl _)]
  simp

/-- Rebinding a name in one frame never changes any frame's parent. -/
theorem envSet_outer (st : EvalState) (addr : Nat) (n : String) (o : Obj)
    (a : Nat) :
    ((st.envSet addr n o).envHeap.getD a ⟨none, []⟩).outer =
      (st.envHeap.getD a ⟨none, []⟩).outer := by
  unfold EvalState.envSet
  rcases eq_or_ne a addr with h | h
  · subst h
    by_cases hlt : a < st.envHeap.length
    · simp [List.getD, List.getElem?_set, hlt]
    · simp [List.getD, List.getElem?_set, hlt,
        List.getElem?_eq_none (Nat.le_of_not_lt hlt)]
  · simp [List.getD, List.getElem?_set, Ne.symm h]

/-- Binding the parameters one after the other never changes any frame's
parent. -/
theorem foldl_envSet_outer (l : List ((Token × String) × Obj)) (addr : Nat)
    (st0 : EvalState) (a : Nat) :
    ((l.foldl (fun acc pa => acc.envSet addr pa.1.2 pa.2) st0).envHeap.getD a
        ⟨none, []⟩).outer =
      (st0.envHeap.getD a ⟨none, []⟩).outer := by
  induction l generalizing st0 with
  | nil => rfl
  | cons hd tl ih => rw [List.foldl_cons, ih, envSet_outer]

/-- Claim C1 (counterexample): evaluating `a + b` does **not** always give
the mathematical sum — at `a = 9223372036854775807` (the largest `int64`)
and `b = 1`, the code allocates an `Integer` holding
`-9223372036854775808`, the wrapped `int64` result, not the mathematical
sum `9223372036854775808`. -/
theorem c1_counterexample :
    (evalIntegerInfixExpression ("+") (.integer 0) (.integer 1)
        ⟨[9223372036854775807, 1], []⟩).1 = some (.integer 2) ∧
    (evalIntegerInfixExpression ("+") (.integer 0) (.integer 1)
        ⟨[9223372036854775807, 1], []⟩).2.intVal 2 = -9223372036854775808 ∧
    ¬ ((-9223372036854775808 : Int) = 9223372036854775807 + 1) := by
  refine ⟨rfl, rfl, by decide⟩

/-- Claim C1 (amended): for operands holding `int64` values `a` and `b`,
`evalIntegerInfixExpression` produces a **fresh** `Integer` cell holding
the two's-complement wrap of the mathematical result for `+`, `-` and `*`;
for `/` it does so with truncation toward zero when `b ≠ 0` (the wrap
covers the lone `-2^63 / -1` overflow), and when `b = 0` there is no
result object at all — the Go program panics (modelled as `none`). -/
theorem c1_amended (st : EvalState) (la lb : Nat) (a b : Int)
    (ha : st.intVal la = a) (hb : st.intVal lb = b) :
    ((evalIntegerInfixExpression ("+") (.integer la) (.integer lb) st).1 =
        some (.integer st.intHeap.length) ∧
      (evalIntegerInfixExpression ("+") (.integer la) (.integer lb)
          st).2.intVal st.intHeap.length = wrap64 (a + b)) ∧
    ((evalIntegerInfixExpression ("-") (.integer la) (.integer lb) st).1 =
        some (.integer st.intHeap.length) ∧
      (evalIntegerInfixExpression ("-") (.integer la) (.integer lb)
          st).2.intVal st.intHeap.length = wrap64 (a - b)) ∧
    ((evalIntegerInfixExpression ("*") (.integer la) (.integer lb) st).1 =
        some (.integer st.intHeap.length) ∧
      (evalIntegerInfixExpression ("*") (.integer la) (.integer lb)
          st).2.intVal st.intHeap.length = wrap64 (a * b)) ∧
    (b ≠ 0 →
      (evalIntegerInfixExpression ("/") (.integer la) (.integer lb) st).1 =
          some (.integer st.intHeap.length) ∧
        (evalIntegerInfixExpression ("/") (.integer la) (.integer lb)
            st).2.intVal st.intHeap.length = wrap64 (a.tdiv b)) ∧
    (b = 0 →
      (evalIntegerInfixExpression ("/") (.integer la) (.integer lb) st).1 =
        none) := by
  subst ha
  subst hb
  refine ⟨⟨rfl, ?_⟩, ⟨rfl, ?_⟩, ⟨rfl, ?_⟩, fun hb0 => ?_, fun hb0 => ?_⟩
  · simp [evalIntegerInfixExpression, EvalState.allocInt, EvalState.intVal,
      getElem?_append_self]
  · simp [evalIntegerInfixExpression, EvalState.allocInt, EvalState.intVal,
      getElem?_append_self]
  · simp [evalIntegerInfixExpression, EvalState.allocInt, EvalState.intVal,
      getElem?_append_self]
  · constructor
    · simp only [evalIntegerInfixExpression]
      rw [if_neg hb0]
      rfl
    · simp only [evalIntegerInfixExpression]
      rw [if_neg hb0]
      simp [EvalState.allocInt, EvalState.intVal, getElem?_append_self]
  · simp only [evalIntegerInfixExpression]
    rw [if_pos hb0]

/-- Claim C1 (witness): the amended theorem at the concrete heaps
`[7, -2]` (so `7 / -2 = -3`, truncation toward zero) and `[7, 0]`
(division by zero panics). -/
theorem c1_witness :
    ((evalIntegerInfixExpression ("+") (.integer 0) (.integer 1)
        ⟨[7, -2], []⟩).2.intVal 2 = wrap64 (7 + -2) ∧
      (evalIntegerInfixExpression ("/") (.integer 0) (.integer 1)
          ⟨[7, -2], []⟩).2.intVal 2 = wrap64 (Int.tdiv 7 (-2))) ∧
    (evalIntegerInfixExpression ("/") (.integer 0) (.integer 1)
        ⟨[7, 0], []⟩).1 = none :=
  ⟨⟨(c1_amended ⟨[7, -2], []⟩ 0 1 7 (-2) rfl rfl).1.2,
    ((c1_amended ⟨[7, -2], []⟩ 0 1 7 (-2) rfl rfl).2.2.2.1 (by decide)).2⟩,
    (c1_amended ⟨[7, 0], []⟩ 0 1 7 0 rfl rfl).2.2.2.2 rfl⟩

/-- Claim C2 (confirmed): parsing renders the fully parenthesized
precedence-reflecting form — `1 + 2 * 3` as `(1 + (2 * 3))`, `-(5 + 5)`
as `(-(5 + 5))`, and (left-associativity) `5 * 1 + 1 * 4` as
`((5 * 1) + (1 * 4))`. -/
theorem c2_precedence_rendering :
    ((Parser.parseProgram 50 toksPrecedence).1.statements.head?.map
        Stmt.string) = some ("(1 + (2 * 3))") ∧
    ((Parser.parseProgram 50 toksGroupedMinus).1.statements.head?.map
        Stmt.string) = some ("(-(5 + 5))") ∧
    ((Parser.parseProgram 50 toksLeftAssoc).1.statements.head?.map
        Stmt.string) = some ("((5 * 1) + (1 * 4))") :=
  ⟨rfl, rfl, rfl⟩

/-- Claim C6 (code bug): not every boolean-producing path returns the
shared singletons — a string `==` comparison allocates a fresh
`object.Boolean` distinct from both `TRUE` and `FALSE`, the
identity-based `isTruthy` therefore counts the fresh false boolean as
truthy, and `if ("a" == "b") \x7b 1 \x7d else \x7b 2 \x7d` evaluates to
`Integer(1)` instead of `Integer(2)`. -/
theorem c6_code_bug :
    evalStringInfixExpression ("==") (.stringObj ("a")) (.stringObj ("b"))
        ⟨[], []⟩ = some (.booleanObj false false) ∧
    (Obj.booleanObj false false ≠ FALSE ∧ Obj.booleanObj false false ≠ TRUE) ∧
    isTruthy (.booleanObj false false) = true ∧
    finalInt (runProgram progStringIf 50) = some 1 := by
  refine ⟨rfl, ⟨?_, ?_⟩, rfl, rfl⟩ <;> simp [FALSE, TRUE]

/-- Claim C7 (code bug): evaluation is **not** mutation-free outside `let`
— `let a = 5; -a; a` evaluates to `Integer(-5)`, because the unary minus
negates the bound `Integer` cell in place: afterwards `a` is still bound
to the same cell (address 0) and that cell holds `-5`. -/
theorem c7_code_bug :
    finalInt (runProgram progNegIdent 20) = some (-5) ∧
    (runProgram progNegIdent 20).2.envGet 0 ("a") = some (.integer 0) ∧
    (runProgram progNegIdent 20).2.intVal 0 = -5 ∧
    ¬ ((-5 : Int) = 5) :=
  ⟨rfl, rfl, rfl, by decide⟩

/-- Claim C10 (confirmed): a `let` statement whose value evaluates
without error returns the bound value itself (while binding it in the
innermost scope), and the program `let a = 5;` evaluates to `Integer(5)`
— the value the REPL then prints. -/
theorem c10_let_value (fuel : Nat) (tok ntok : Token) (n : String)
    (value : Expr) (env : Nat) (st st1 : EvalState) (v : Obj)
    (h : Eval fuel (.expr value) env st = (some v, st1))
    (hv : ¬ v.typeTag = "ERROR") :
    Eval (fuel + 1) (.stmt (.letStmt tok (.identifier ntok n) value)) env st =
      (some v, st1.envSet env n v) ∧
    finalInt (runProgram progLetOnly 20) = some 5 := by
  refine ⟨?_, rfl⟩
  simp [Eval, h, isError, hv]

/-- Claim C10 (witness): the theorem applied to `let a = 5;` in a fresh
global environment. -/
theorem c10_witness :
    Eval 2 (.stmt (.letStmt ⟨TokenType.LET, "let"⟩
        (.identifier ⟨TokenType.IDENT, "a"⟩ ("a")) (mkInt 5))) 0
        ⟨[], [⟨none, []⟩]⟩ =
      (some (.integer 0),
        (⟨[5], [⟨none, []⟩]⟩ : EvalState).envSet 0 ("a") (.integer 0)) :=
  (c10_let_value 1 ⟨TokenType.LET, "let"⟩ ⟨TokenType.IDENT, "a"⟩ ("a")
    (mkInt 5) 0 ⟨[], [⟨none, []⟩]⟩ ⟨[5], [⟨none, []⟩]⟩ (.integer 0) rfl
    (by simp [Obj.typeTag])).1


/-- Claim C3 (confirmed): a statement whose evaluation yields a
`ReturnValue` stops the sequence at once, whatever statements follow — a
`Program`-level sequence returns the unwrapped inner value, a
`BlockStatement` returns the `ReturnValue` itself unchanged, and
`applyFunction` unwraps it at the function-call boundary. -/
theorem c3_return_propagation (fuel : Nat) (s : Stmt) (rest : List Stmt)
    (env : Nat) (st st' : EvalState) (v : Obj) :
    (Eval fuel (.stmt s) env st = (some (.returnValue v), st') →
      evalStatements (fuel + 1) (s :: rest) env st = (some v, st')) ∧
    (Eval fuel (.stmt s) env st = (some (.returnValue v), st') →
      evalBlockStatement (fuel + 1) (s :: rest) env st =
        (some (.returnValue v), st')) ∧
    (∀ params bodyTok bodyStmts fnEnv args,
      Eval fuel (.block bodyTok bodyStmts)
          (extendFunctionEnv params fnEnv args st).1
          (extendFunctionEnv params fnEnv args st).2 =
        (some (.returnValue v), st') →
      applyFunction (fuel + 1) (.function params (bodyTok, bodyStmts) fnEnv)
          args st = (some v, st')) := by
  refine ⟨fun h => ?_, fun h => ?_, fun params bodyTok bodyStmts fnEnv args h => ?_⟩
  · simp [evalStatements, h]
  · simp [evalBlockStatement, h, Obj.typeTag]
  · rcases hE : extendFunctionEnv params fnEnv args st with ⟨e, st1⟩
    rw [hE] at h
    simp only [applyFunction, hE]
    simp [h, unwrapReturnValue]

/-- Claim C3 (witness): the theorem applied to `return 10;` followed by a
skipped `9;`, and to a function body that immediately returns, in a fresh
global environment; `let f = fn() ... return 10 ... ; f()` with the return
nested under two `if (true)` blocks evaluates to `Integer(10)`. -/
theorem c3_witness :
    evalStatements 6 [stmtReturn10, stmtNine] 0 ⟨[], [⟨none, []⟩]⟩ =
      (some (.integer 0), ⟨[10], [⟨none, []⟩]⟩) ∧
    evalBlockStatement 6 [stmtReturn10, stmtNine] 0 ⟨[], [⟨none, []⟩]⟩ =
      (some (.returnValue (.integer 0)), ⟨[10], [⟨none, []⟩]⟩) ∧
    applyFunction 6 (.function [] (lbraceTok, [stmtReturn10]) 0) [] ⟨[], [⟨none, []⟩]⟩ =
      (some (.integer 0), ⟨[10], [⟨none, []⟩, ⟨some 0, []⟩]⟩) ∧
    finalInt (runProgram progNestedReturn 60) = some 10 :=
  ⟨(c3_return_propagation 5 stmtReturn10 [stmtNine] 0 ⟨[], [⟨none, []⟩]⟩
      ⟨[10], [⟨none, []⟩]⟩ (.integer 0)).1 rfl,
   (c3_return_propagation 5 stmtReturn10 [stmtNine] 0 ⟨[], [⟨none, []⟩]⟩
      ⟨[10], [⟨none, []⟩]⟩ (.integer 0)).2.1 rfl,
   (c3_return_propagation 5 stmtReturn10 [stmtNine] 0 ⟨[], [⟨none, []⟩]⟩
      ⟨[10], [⟨none, []⟩, ⟨some 0, []⟩]⟩ (.integer 0)).2.2 [] lbraceTok
      [stmtReturn10] 0 [] rfl,
   rfl⟩

/-- Claim C4 (confirmed): the spec's closure program evaluates to
`Integer(5)`; evaluating a function literal captures the **current**
environment as the function's `definitionEnv`; and the frame
`extendFunctionEnv` creates for a call has the function's captured
environment as its parent (the caller's environment is not even passed
in). -/
theorem c4_closure_env :
    finalInt (runProgram progClosure 50) = some 5 ∧
    (∀ (fuel : Nat) (tok : Token) (params : List (Token × String))
        (body : Token × List Stmt) (env : Nat) (st : EvalState),
      Eval (fuel + 1) (.expr (.functionLiteral tok params body)) env st =
        (some (.function params body env), st)) ∧
    (∀ (params : List (Token × String)) (fnEnv : Nat) (args : List Obj)
        (st : EvalState),
      ((extendFunctionEnv params fnEnv args st).2.envHeap.getD
          (extendFunctionEnv params fnEnv args st).1 ⟨none, []⟩).outer =
        some fnEnv) := by
  refine ⟨rfl, fun fuel tok params body env st => rfl,
    fun params fnEnv args st => ?_⟩
  simp only [extendFunctionEnv, EvalState.newEnv]
  rw [foldl_envSet_outer]
  simp [List.getD, getElem?_append_self]


/-- Claim C5 (counterexample): for the unsupported combination
`"a" - "b"` the two operand type tags match (`STRING`/`STRING`), yet the
result is the error `unknown operation: STRING - STRING` — not an
"unknown operator" error as the claim requires for matching tags. -/
theorem c5_counterexample :
    (evalInfixExpression ("-") (.stringObj ("a")) (.stringObj ("b"))
        ⟨[], []⟩).1 = some (.error ("unknown operation: STRING - STRING")) ∧
    Obj.typeTag (.stringObj ("a")) = Obj.typeTag (.stringObj ("b")) ∧
    ¬ List.isPrefixOf ("unknown operator").data
        ("unknown operation: STRING - STRING").data ∧
    ¬ (("unknown operation: STRING - STRING" : String) =
        "unknown operator: STRING - STRING") :=
  ⟨rfl, rfl, by decide, by decide⟩

/-- Claim C5 (amended): for non-error operands, an unsupported
integer×integer or boolean×boolean operator yields an
`unknown operator: L op R` error; an unsupported string×string operator
and any string×integer operator other than `*` yield an
`unknown operation: L op R` error; and every other combination — whether
or not the two tags match (e.g. `NULL op NULL`) — yields a
`type mismatch: L op R` error. -/
theorem c5_amended (op : String) (st : EvalState) :
    (∀ la ra : Nat, op ≠ "+" → op ≠ "-" → op ≠ "*" → op ≠ "/" → op ≠ "==" →
      op ≠ "!=" → op ≠ "<" → op ≠ ">" →
      (evalInfixExpression op (.integer la) (.integer ra) st).1 =
        some (.error ("unknown operator: INTEGER " ++ op ++ " INTEGER"))) ∧
    (∀ lv ls rv rs, op ≠ "==" → op ≠ "!=" → op ≠ "<" → op ≠ ">" →
      (evalInfixExpression op (.booleanObj lv ls) (.booleanObj rv rs) st).1 =
        some (.error ("unknown operator: BOOLEAN " ++ op ++ " BOOLEAN"))) ∧
    (∀ ls rs, op ≠ "+" → op ≠ "==" → op ≠ "!=" →
      (evalInfixExpression op (.stringObj ls) (.stringObj rs) st).1 =
        some (.error ("unknown operation: STRING " ++ op ++ " STRING"))) ∧
    (∀ (ls : String) (ra : Nat), op ≠ "*" →
      (evalInfixExpression op (.stringObj ls) (.integer ra) st).1 =
        some (.error ("unknown operation: STRING " ++ op ++ " INTEGER"))) ∧
    (∀ l r : Obj,
      ¬ (l.typeTag = "INTEGER" ∧ r.typeTag = "INTEGER") →
      ¬ (l.typeTag = "BOOLEAN" ∧ r.typeTag = "BOOLEAN") →
      ¬ (l.typeTag = "STRING" ∧ (r.typeTag = "INTEGER" ∨ r.typeTag = "STRING")) →
      (evalInfixExpression op l r st).1 =
        some (.error ("type mismatch: " ++ l.typeTag ++ " " ++ op ++ " " ++
          r.typeTag))) := by
  refine ⟨fun la ra h1 h2 h3 h4 h5 h6 h7 h8 => ?_,
    fun lv ls rv rs h1 h2 h3 h4 => ?_, fun ls rs h1 h2 h3 => ?_,
    fun ls ra h1 => ?_, fun l r h1 h2 h3 => ?_⟩
  · simp [evalInfixExpression, Obj.typeTag, evalIntegerInfixExpression,
      newError, h1, h2, h3, h4, h5, h6, h7, h8]
  · simp [evalInfixExpression, Obj.typeTag, evalBooleanInfixExpression,
      newError, h1, h2, h3, h4]
  · simp [evalInfixExpression, Obj.typeTag, evalStringInfixExpression,
      newError, h1, h2, h3]
  · simp [evalInfixExpression, Obj.typeTag, evalStringInfixExpression,
      newError, h1]
  · simp [evalInfixExpression, newError, h1, h2, h3]

/-- Claim C5 (witness): the amended theorem at operator `%`: each family
produces its message at concrete operands, including the tag-equal
`NULL % NULL` falling to `type mismatch`. -/
theorem c5_amended_witness :
    (evalInfixExpression ("%") (.integer 0) (.integer 1) ⟨[], []⟩).1 =
      some (.error ("unknown operator: INTEGER % INTEGER")) ∧
    (evalInfixExpression ("%") (.booleanObj true true) (.booleanObj false true)
        ⟨[], []⟩).1 =
      some (.error ("unknown operator: BOOLEAN % BOOLEAN")) ∧
    (evalInfixExpression ("%") (.stringObj ("a")) (.stringObj ("b"))
        ⟨[], []⟩).1 =
      some (.error ("unknown operation: STRING % STRING")) ∧
    (evalInfixExpression ("%") (.stringObj ("a")) (.integer 0) ⟨[], []⟩).1 =
      some (.error ("unknown operation: STRING % INTEGER")) ∧
    (evalInfixExpression ("%") .null .null ⟨[], []⟩).1 =
      some (.error ("type mismatch: NULL % NULL")) :=
  ⟨(c5_amended ("%") ⟨[], []⟩).1 0 1 (by decide) (by decide) (by decide)
      (by decide) (by decide) (by decide) (by decide) (by decide),
   (c5_amended ("%") ⟨[], []⟩).2.1 true true false true (by decide) (by decide)
      (by decide) (by decide),
   (c5_amended ("%") ⟨[], []⟩).2.2.1 ("a") ("b") (by decide) (by decide)
      (by decide),
   (c5_amended ("%") ⟨[], []⟩).2.2.2.1 ("a") 0 (by decide),
   (c5_amended ("%") ⟨[], []⟩).2.2.2.2 .null .null (by simp [Obj.typeTag])
      (by simp [Obj.typeTag]) (by simp [Obj.typeTag])⟩

/-- Claim C8 (confirmed, modelled from the spec): `array[i]` yields the
`i`-th element in range and `Null` out of range; `hash[k]` yields the
mapped value or `Null` on miss (an unhashable key is an error naming its
type); indexing any other object is a type error naming the indexed
object's type tag; concretely `[1,2,3][1]` is `Integer(2)` and `{1:1}[1]`
is `Integer(1)`. -/
theorem c8_index_semantics (st : EvalState) :
    (∀ (elements : List Obj) (i : Nat) (ia : Nat),
      st.intVal ia = (i : Int) → i < elements.length →
      evalIndexExpression (.arrayObj elements) (.integer ia) st =
        elements.getD i NULL) ∧
    (∀ (elements : List Obj) (i : Int) (ia : Nat), st.intVal ia = i →
      (i < 0 ∨ i > (elements.length : Int) - 1) →
      evalIndexExpression (.arrayObj elements) (.integer ia) st = NULL) ∧
    (∀ pairs (key : Obj) hk kv, hashKey key st = some hk →
      pairs.lookup hk = some kv →
      evalIndexExpression (.hashObj pairs) key st = kv.2) ∧
    (∀ pairs (key : Obj) hk, hashKey key st = some hk →
      pairs.lookup hk = none →
      evalIndexExpression (.hashObj pairs) key st = NULL) ∧
    (∀ left index : Obj,
      (left.typeTag = "ARRAY" → index.typeTag ≠ "INTEGER") →
      left.typeTag ≠ "HASH" →
      evalIndexExpression left index st =
        newError ("index operator not supported: " ++ left.typeTag)) ∧
    evalIndexExpression (.arrayObj [.integer 0, .integer 1, .integer 2])
        (.integer 3) ⟨[1, 2, 3, 1], []⟩ = .integer 1 ∧
    (⟨[1, 2, 3, 1], []⟩ : EvalState).intVal 1 = 2 ∧
    evalIndexExpression (.hashObj [("INTEGER_1", .integer 0, .integer 1)])
        (.integer 2) ⟨[1, 1, 1], []⟩ = .integer 1 ∧
    (⟨[1, 1, 1], []⟩ : EvalState).intVal 1 = 1 := by
  refine ⟨fun elements i ia ha hi => ?_, fun elements i ia ha hi => ?_,
    fun pairs key hk kv hh hl => ?_, fun pairs key hk hh hl => ?_,
    fun left index h1 h2 => ?_, rfl, rfl, rfl, rfl⟩
  · simp only [evalIndexExpression, evalArrayIndexExpression, ha]
    rw [if_neg]
    · simp
    · omega
  · simp only [evalIndexExpression, evalArrayIndexExpression, ha]
    rw [if_pos hi]
  · simp [evalIndexExpression, evalHashIndexExpression, hh, hl]
  · simp [evalIndexExpression, evalHashIndexExpression, hh, hl, NULL]
  · cases left <;> cases index <;>
      simp_all [Obj.typeTag, evalIndexExpression, newError]

/-- Claim C8 (witness): the general clauses of the theorem at concrete
inputs — `[null][0]` in range, `[null][1]` out of range, a hash miss, and
indexing a string. -/
theorem c8_witness :
    evalIndexExpression (.arrayObj [.null]) (.integer 0) ⟨[0], []⟩ = .null ∧
    evalIndexExpression (.arrayObj [.null]) (.integer 1) ⟨[1], []⟩ = NULL ∧
    evalIndexExpression (.hashObj []) (.integer 0) ⟨[0], []⟩ = NULL ∧
    evalIndexExpression (.stringObj ("s")) (.integer 0) ⟨[0], []⟩ =
      newError ("index operator not supported: STRING") :=
  ⟨(c8_index_semantics ⟨[0], []⟩).1 [.null] 0 0 rfl (by decide),
   (c8_index_semantics ⟨[1], []⟩).2.1 [.null] 1 0 rfl (by decide),
   (c8_index_semantics ⟨[0], []⟩).2.2.2.1 [] (.integer 0) ("INTEGER_0") rfl rfl,
   (c8_index_semantics ⟨[0], []⟩).2.2.2.2.1 (.stringObj ("s")) (.integer 0)
      (by simp [Obj.typeTag]) (by simp [Obj.typeTag])⟩


/- Infrastructure for the parser error-taxonomy claim: every function of
the parser preserves the invariant `ErrsOK` (all accumulated messages have
one of the three actual forms), because the only three places that append
an error are `peekError`, `noPrefixParseFnError` and
`parseIntegerLiteral`. -/

/-- Advancing the token window never touches the error list. -/
theorem nextToken_errors (p : PState) :
    (Parser.nextToken p).errors = p.errors := by
  unfold Parser.nextToken
  rcases h : Parser.takeToken p.rest with ⟨t, ts⟩
  rfl

/-- Advancing the token window preserves the invariant. -/
theorem errsOK_nextToken (p : PState) (h : ErrsOK p) :
    ErrsOK (Parser.nextToken p) := by
  unfold ErrsOK
  rw [nextToken_errors]
  exact h

/-- Appending one well-formed message preserves the invariant. -/
theorem errsOK_append (p : PState) (m : String) (h : ErrsOK p)
    (hm : ActualErrForm m) : ErrsOK { p with errors := p.errors ++ [m] } := by
  intro e he
  rcases List.mem_append.mp he with h1 | h2
  · exact h e h1
  · rw [List.mem_singleton] at h2
    rw [h2]
    exact hm

/-- Lemma for `peekError`: its message has the first actual form. -/
theorem errsOK_peekError (t : String) (p : PState) (h : ErrsOK p) :
    ErrsOK (Parser.peekError t p) := by
  unfold Parser.peekError
  split
  · exact errsOK_append p _ h (Or.inl ⟨t, p.peekToken.type, rfl⟩)
  · exact h

/-- Lemma for `expectPeek`: both outcomes preserve the invariant. -/
theorem errsOK_expectPeek (t : String) (p : PState) (h : ErrsOK p) :
    ErrsOK (Parser.expectPeek t p).2 := by
  unfold Parser.expectPeek
  split
  · exact errsOK_nextToken p h
  · exact errsOK_peekError t p h

/-- Lemma for `noPrefixParseFnError`: its message has the second actual
form. -/
theorem errsOK_noPrefixParseFnError (t : String) (p : PState) (h : ErrsOK p) :
    ErrsOK (Parser.noPrefixParseFnError t p) :=
  errsOK_append p _ h (Or.inr (Or.inl ⟨t, rfl⟩))

/-- Lemma for `parseIntegerLiteral`: its message has the third actual
form. -/
theorem errsOK_parseIntegerLiteral (p : PState) (h : ErrsOK p) :
    ErrsOK (Parser.parseIntegerLiteral p).2 := by
  unfold Parser.parseIntegerLiteral
  split
  · exact h
  · exact errsOK_append p _ h (Or.inr (Or.inr ⟨p.curToken.literal, rfl⟩))

/-- Consuming trailing semicolons never touches the error list. -/
theorem skipSemicolons_errors (fuel : Nat) :
    ∀ p, (Parser.skipSemicolons fuel p).errors = p.errors := by
  induction fuel with
  | zero => intro p; rfl
  | succ n ih =>
      intro p
      simp only [Parser.skipSemicolons]
      split
      · rw [ih, nextToken_errors]
      · rfl

/-- Consuming trailing semicolons preserves the invariant. -/
theorem errsOK_skipSemicolons (fuel : Nat) (p : PState) (h : ErrsOK p) :
    ErrsOK (Parser.skipSemicolons fuel p) := by
  unfold ErrsOK
  rw [skipSemicolons_errors]
  exact h


namespace Parser

/-- Transport of the invariant through an equation on an
`Option (Expr × PState)` result. -/
theorem errsOK_of_some_eq {r s : Expr × PState} (h : some r = some s)
    (hr : ErrsOK r.2) : ErrsOK s.2 := by
  injection h with h1
  rw [← h1]
  exact hr

set_option maxHeartbeats 4000000 in
/-- Master lemma: every parse rule preserves the invariant that all
accumulated error messages have one of the three actual forms, by
simultaneous induction on the fuel. -/
theorem parserErrsOK (fuel : Nat) :
    (∀ prec p, ErrsOK p → ErrsOK (parseExpression fuel prec p).2) ∧
    (∀ p r, ErrsOK p → runPrefixRule fuel p = some r → ErrsOK r.2) ∧
    (∀ prec e p, ErrsOK p → ErrsOK (parseExpressionLoop fuel prec e p).2) ∧
    (∀ e p, ErrsOK p → ErrsOK (parseInfixOperatorExpression fuel e p).2) ∧
    (∀ p, ErrsOK p → ErrsOK (parsePrefixOperatorExpression fuel p).2) ∧
    (∀ p, ErrsOK p → ErrsOK (parseGroupedExpression fuel p).2) ∧
    (∀ p, ErrsOK p → ErrsOK (parseIfExpression fuel p).2) ∧
    (∀ p, ErrsOK p → ErrsOK (parseBlockStatement fuel p).2) ∧
    (∀ p, ErrsOK p → ErrsOK (parseBlockLoop fuel p).2) ∧
    (∀ p, ErrsOK p → ErrsOK (parseFunctionParameters fuel p).2) ∧
    (∀ p, ErrsOK p → ErrsOK (parseFunctionParametersLoop fuel p).2) ∧
    (∀ p, ErrsOK p → ErrsOK (parseFunctionLiteral fuel p).2) ∧
    (∀ e p, ErrsOK p → ErrsOK (parseCallExpression fuel e p).2) ∧
    (∀ p, ErrsOK p → ErrsOK (parseArrayLiteral fuel p).2) ∧
    (∀ endTok p, ErrsOK p → ErrsOK (parseExpressionList fuel endTok p).2) ∧
    (∀ p, ErrsOK p → ErrsOK (parseExpressionListLoop fuel p).2) ∧
    (∀ e p, ErrsOK p → ErrsOK (parseIndexExpression fuel e p).2) ∧
    (∀ p, ErrsOK p → ErrsOK (parseHashExpression fuel p).2) ∧
    (∀ p, ErrsOK p → ErrsOK (parseHashLoop fuel p).2) ∧
    (∀ p, ErrsOK p → ErrsOK (parseLetStatement fuel p).2) ∧
    (∀ p, ErrsOK p → ErrsOK (parseReturnStatement fuel p).2) ∧
    (∀ p, ErrsOK p → ErrsOK (parseExpressionStatements fuel p).2) ∧
    (∀ p, ErrsOK p → ErrsOK (parseStatement fuel p).2) ∧
    (∀ p, ErrsOK p → ErrsOK (parseProgramLoop fuel p).2) := by
  induction fuel with
  | zero =>
      refine ⟨?_, ?_, ?_, ?_, ?_, ?_, ?_, ?_, ?_, ?_, ?_, ?_, ?_, ?_, ?_, ?_,
        ?_, ?_, ?_, ?_, ?_, ?_, ?_, ?_⟩
      · intro prec p hp; simp only [parseExpression]; exact hp
      · intro p r hp h; simp only [runPrefixRule] at h; exact Option.noConfusion h
      · intro prec e p hp; simp only [parseExpressionLoop]; exact hp
      · intro e p hp; simp only [parseInfixOperatorExpression]; exact hp
      · intro p hp; simp only [parsePrefixOperatorExpression]; exact hp
      · intro p hp; simp only [parseGroupedExpression]; exact hp
      · intro p hp; simp only [parseIfExpression]; exact hp
      · intro p hp; simp only [parseBlockStatement]; exact hp
      · intro p hp; simp only [parseBlockLoop]; exact hp
      · intro p hp; simp only [parseFunctionParameters]; exact hp
      · intro p hp; simp only [parseFunctionParametersLoop]; exact hp
      · intro p hp; simp only [parseFunctionLiteral]; exact hp
      · intro e p hp; simp only [parseCallExpression]; exact hp
      · intro p hp; simp only [parseArrayLiteral]; exact hp
      · intro endTok p hp; simp only [parseExpressionList]; exact hp
      · intro p hp; simp only [parseExpressionListLoop]; exact hp
      · intro e p hp; simp only [parseIndexExpression]; exact hp
      · intro p hp; simp only [parseHashExpression]; exact hp
      · intro p hp; simp only [parseHashLoop]; exact hp
      · intro p hp; simp only [parseLetStatement]; exact hp
      · intro p hp; simp only [parseReturnStatement]; exact hp
      · intro p hp; simp only [parseExpressionStatements]; exact hp
      · intro p hp; simp only [parseStatement]; exact hp
      · intro p hp; simp only [parseProgramLoop]; exact hp
  | succ fuel ih =>
      obtain ⟨ih1, ih2, ih3, ih4, ih5, ih6, ih7, ih8, ih9, ih10, ih11, ih12,
        ih13, ih14, ih15, ih16, ih17, ih18, ih19, ih20, ih21, ih22, ih23,
        ih24⟩ := ih
      refine ⟨?_, ?_, ?_, ?_, ?_, ?_, ?_, ?_, ?_, ?_, ?_, ?_, ?_, ?_, ?_, ?_,
        ?_, ?_, ?_, ?_, ?_, ?_, ?_, ?_⟩
      · -- parseExpression
        intro prec p hp
        simp only [parseExpression]
        split
        · exact errsOK_noPrefixParseFnError _ _ hp
        · next e1 p1 heq => exact ih3 prec e1 p1 (ih2 p (e1, p1) hp heq)
      · -- runPrefixRule
        intro p r hp h
        simp only [runPrefixRule] at h
        split_ifs at h
        · exact errsOK_of_some_eq h hp
        · exact errsOK_of_some_eq h (errsOK_parseIntegerLiteral p hp)
        · exact errsOK_of_some_eq h (ih5 p hp)
        · exact errsOK_of_some_eq h hp
        · exact errsOK_of_some_eq h (ih6 p hp)
        · exact errsOK_of_some_eq h (ih7 p hp)
        · exact errsOK_of_some_eq h (ih12 p hp)
        · exact errsOK_of_some_eq h hp
        · exact errsOK_of_some_eq h (ih14 p hp)
        · exact errsOK_of_some_eq h (ih18 p hp)
      · -- parseExpressionLoop
        intro prec e p hp
        simp only [parseExpressionLoop]
        have hN := errsOK_nextToken p hp
        split_ifs with h1 h2 h3 h4
        · exact ih3 _ _ _ (ih4 _ _ hN)
        · exact ih3 _ _ _ (ih13 _ _ hN)
        · exact ih3 _ _ _ (ih17 _ _ hN)
        · exact hp
        · exact hp
      · -- parseInfixOperatorExpression
        intro e p hp
        simp only [parseInfixOperatorExpression]
        exact ih1 _ _ (errsOK_nextToken p hp)
      · -- parsePrefixOperatorExpression
        intro p hp
        simp only [parsePrefixOperatorExpression]
        exact ih1 _ _ (errsOK_nextToken p hp)
      · -- parseGroupedExpression
        intro p hp
        simp only [parseGroupedExpression]
        have hB := errsOK_expectPeek TokenType.RPAREN _
          (ih1 LOWEST _ (errsOK_nextToken p hp))
        split_ifs <;> exact hB
      · -- parseIfExpression
        intro p hp
        simp only [parseIfExpression]
        have hA := errsOK_expectPeek TokenType.LPAREN p hp
        have hB := ih1 LOWEST _ (errsOK_nextToken _ hA)
        have hC := errsOK_expectPeek TokenType.RPAREN _ hB
        have hD := errsOK_expectPeek TokenType.LBRACE _ hC
        have hE := ih8 _ hD
        have hF := errsOK_expectPeek TokenType.LBRACE _ (errsOK_nextToken _ hE)
        have hG := ih8 _ hF
        split_ifs with h1 h2 h3 h4 h5
        · exact hG
        · exact hF
        · exact hE
        · exact hD
        · exact hC
        · exact hA
      · -- parseBlockStatement
        intro p hp
        simp only [parseBlockStatement]
        exact ih9 _ (errsOK_nextToken p hp)
      · -- parseBlockLoop
        intro p hp
        simp only [parseBlockLoop]
        split_ifs with h1
        · exact ih9 _ (errsOK_nextToken _ (ih23 p hp))
        · exact hp
      · -- parseFunctionParameters
        intro p hp
        simp only [parseFunctionParameters]
        have hL := errsOK_expectPeek TokenType.RPAREN _
          (ih11 _ (errsOK_nextToken p hp))
        split_ifs with h1 h2
        · exact errsOK_nextToken p hp
        · exact hL
        · exact hL
      · -- parseFunctionParametersLoop
        intro p hp
        simp only [parseFunctionParametersLoop]
        split_ifs with h1
        · exact ih11 _ (errsOK_nextToken _ (errsOK_nextToken _ hp))
        · exact hp
      · -- parseFunctionLiteral
        intro p hp
        simp only [parseFunctionLiteral]
        have hA := errsOK_expectPeek TokenType.LPAREN p hp
        have hB := ih10 _ hA
        have hC := errsOK_expectPeek TokenType.LBRACE _ hB
        have hD := ih8 _ hC
        split_ifs with h1 h2
        · exact hD
        · exact hC
        · exact hA
      · -- parseCallExpression
        intro e p hp
        simp only [parseCallExpression]
        exact ih15 _ _ hp
      · -- parseArrayLiteral
        intro p hp
        simp only [parseArrayLiteral]
        exact ih15 _ _ hp
      · -- parseExpressionList
        intro endTok p hp
        simp only [parseExpressionList]
        have hL := errsOK_expectPeek endTok _
          (ih16 _ (ih1 LOWEST _ (errsOK_nextToken p hp)))
        split_ifs with h1 h2
        · exact errsOK_nextToken p hp
        · exact hL
        · exact hL
      · -- parseExpressionListLoop
        intro p hp
        simp only [parseExpressionListLoop]
        split_ifs with h1
        · exact ih16 _ (ih1 LOWEST _ (errsOK_nextToken _ (errsOK_nextToken _ hp)))
        · exact hp
      · -- parseIndexExpression
        intro e p hp
        simp only [parseIndexExpression]
        have hC := errsOK_expectPeek TokenType.RBRACKET _
          (ih1 LOWEST _ (errsOK_nextToken p hp))
        split_ifs with h1 h2 h3
        · exact errsOK_nextToken p hp
        · exact hp
        · exact hC
        · exact hC
      · -- parseHashExpression
        intro p hp
        simp only [parseHashExpression]
        have hL := ih19 p hp
        split
        · exact hL
        · have hP := errsOK_expectPeek TokenType.RBRACE _ hL
          split_ifs <;> exact hP
      · -- parseHashLoop
        intro p hp
        simp only [parseHashLoop]
        have hK := ih1 LOWEST _ (errsOK_nextToken p hp)
        have hCol := errsOK_expectPeek TokenType.COLON _ hK
        have hVal := ih1 LOWEST _ (errsOK_nextToken _ hCol)
        have hComma := errsOK_expectPeek TokenType.COMMA _ hVal
        have hRec1 := ih19 _ hComma
        have hRec2 := ih19 _ hVal
        split_ifs with h1 h2 h3 h4
        · exact hp
        · exact hRec2
        · exact hRec1
        · exact hComma
        · exact hCol
      · -- parseLetStatement
        intro p hp
        simp only [parseLetStatement]
        have hA := errsOK_expectPeek TokenType.IDENT p hp
        have hB := errsOK_expectPeek TokenType.ASSIGN _ hA
        have hC := errsOK_skipSemicolons fuel _
          (ih1 LOWEST _ (errsOK_nextToken _ hB))
        split_ifs with h1 h2
        · exact hC
        · exact hB
        · exact hA
      · -- parseReturnStatement
        intro p hp
        simp only [parseReturnStatement]
        exact errsOK_skipSemicolons fuel _ (ih1 LOWEST _ (errsOK_nextToken p hp))
      · -- parseExpressionStatements
        intro p hp
        simp only [parseExpressionStatements]
        have hE := ih1 LOWEST p hp
        split_ifs with h1
        · exact errsOK_nextToken _ hE
        · exact hE
      · -- parseStatement
        intro p hp
        simp only [parseStatement]
        split_ifs with h1 h2
        · exact ih20 p hp
        · exact ih21 p hp
        · exact ih22 p hp
      · -- parseProgramLoop
        intro p hp
        simp only [parseProgramLoop]
        split_ifs with h1
        · exact hp
        · exact ih24 _ (errsOK_nextToken _ (ih23 p hp))

end Parser


/-- Claim C9 (counterexample): feeding the parser `)` produces exactly the
error `no prefix parser function for ) found`, and that message has none
of the three forms the claim lists — in particular it is not
"no prefix **parse** function for `)` found". -/
theorem c9_counterexample :
    (Parser.parseProgram 50 toksNoPrefixRule).2.errors =
      ["no prefix parser function for ) found"] ∧
    ¬ ClaimedErrForm ("no prefix parser function for ) found") := by
  refine ⟨rfl, ?_⟩
  intro h
  rcases h with ⟨x, y, hxy⟩ | ⟨x, hx⟩ | ⟨l, hl⟩
  · have hpre : ("expected next token to be ").data <+:
        ("no prefix parser function for ) found").data := by
      rw [hxy]
      simp only [String.data_append, List.append_assoc]
      exact List.prefix_append _ _
    exact absurd hpre (by decide)
  · have hpre : ("no prefix parse function for ").data <+:
        ("no prefix parser function for ) found").data := by
      rw [hx]
      simp only [String.data_append, List.append_assoc]
      exact List.prefix_append _ _
    exact absurd hpre (by decide)
  · have hpre : ("could not parse ").data <+:
        ("no prefix parser function for ) found").data := by
      rw [hl]
      simp only [String.data_append, List.append_assoc]
      exact List.prefix_append _ _
    exact absurd hpre (by decide)

/-- Claim C9 (amended): every error message the parser accumulates has
one of exactly three forms — "expected next token to be X, got Y instead",
"no prefix **parser** function for X found", and "could not parse Q as
integer" with the literal rendered through `%q` — and parsing of
subsequent top-level statements continues after an error (after the `)`
error, the following `7` still parses as a statement). -/
theorem c9_amended :
    (∀ (fuel : Nat) (toks : List Token) (e : String),
      e ∈ (Parser.parseProgram fuel toks).2.errors → ActualErrForm e) ∧
    (Parser.parseProgram 50 toksNoPrefixRule).1.statements.map Stmt.string =
      ["", "7"] := by
  refine ⟨?_, rfl⟩
  intro fuel toks e he
  have hnew : ErrsOK (Parser.pNew toks) := by
    intro e' he'
    simp only [Parser.pNew] at he'
    exact absurd he' (List.not_mem_nil e')
  simp only [Parser.parseProgram] at he
  exact (Parser.parserErrsOK fuel).2.2.2.2.2.2.2.2.2.2.2.2.2.2.2.2.2.2.2.2.2.2.2
    (Parser.pNew toks) hnew e he

/-- Claim C9 (witness): the amended theorem applied to the concrete error
the `)` input produces. -/
theorem c9_witness :
    ActualErrForm ("no prefix parser function for ) found") :=
  c9_amended.1 50 toksNoPrefixRule ("no prefix parser function for ) found")
    (by decide)

end Monkey
